import Mathlib

/-!
# A shallow embedding of `execution.hpp` (senders, receivers, `then`, `sync_wait`,
the awaitable bridge of `connect`, the environment-write adaptor, the stop-token query,
the generic receiver and operation-state adaptors, `submit`, `as_awaitable` and
`with_awaitable_senders_base`)

The C++ source is template code: a large part of what it "does" is decided at
overload-resolution time (which `operator()` of a tag is viable, which
`tag_invoke` friend is found, whether a result type exists).  The embedding
therefore has two layers:

* a *resolution layer*: Boolean functions that compute the C++ concepts and
  `requires` clauses of the source on descriptions of the types involved;
* a *run-time layer*: explicit state passing for `connect`/`start` and the
  completion signals, with exceptions and `std::terminate` made explicit.

Modelling conventions (stated once, used throughout):

* A C++ type is a `Ty`; a run-time value is a `Val` and determines its type.
  Reference and cv qualifiers are erased (every call site in the source forwards
  its arguments), values can always be copied and moved, and copying never throws.
* The value category of a sender expression matters to `connect` (the `then`
  sender's member `connect` is rvalue-qualified), so `connect` and `sync_wait`
  take a flag `rv`: `true` for a temporary (an rvalue), `false` for an lvalue.
* The members `set_value` of the `then` receiver and `connect` of the `then`
  sender are private, while the concepts `__has_set_value` and `__has_connect`
  that look for them are declared at namespace scope. By the language rule such
  a concept does not see a private member; the design of the adaptors (a derived
  class supplies only the operations it overrides) presupposes that it does. The
  flag `acc` selects the answer (`true`: the members are seen). Every statement
  below either holds for both values of `acc` or spells out both.
* When two function templates of one call operator are both viable and neither
  is more constrained than the other, the call is ambiguous and therefore
  ill-formed.
* `tag_invoke` itself lives in a header that is not part of the sources at hand;
  `tag_invocable<Tag, Args...>` is taken to mean that a `tag_invoke` friend
  accepting `(Tag, Args...)` is declared by one of the argument classes or their
  bases.
* Threads are not modelled: every operation state of the model completes
  inside `start`, so the waiter of `sync_wait` finds `data` filled in (or blocks
  forever when it is not).
* An awaitable is described by the signal it completes with; the coroutine of
  `__connect_awaitable` is modelled by what resuming it does, and by its initial
  suspend point. The concepts `__awaitable` and `stoppable_token` come from
  headers that are not among the sources: the first is a field of the type
  description, the second a parameter.
* Query tags are numbered; the tag written by the environment-write adaptor is
  taken to be a query tag, never one of the three completion tags.
* The heap is not modelled. The object that `submit` allocates is followed by
  counting the evaluations of the `delete` expression on it (`World.deleted`);
  a second evaluation is a double deletion.
* A host coroutine that awaits a sender is described by what happens to it:
  resuming it at the `co_await` evaluates `await_resume()`, which returns a value
  to the host or throws into it; coroutine handles are numbered.
-/

namespace StdExec

/-! ## Types and values -/

/-- The C++ types that occur in the development. `named n` stands for an
arbitrary further class type. -/
inductive Ty where
  | void
  | int
  | short
  | long
  | double
  | string
  | exception_ptr
  | named (n : Nat)
  deriving DecidableEq, Repr

/-- Run-time values. `eptr e` is a `std::exception_ptr` that holds the thrown
object `e`. -/
inductive Val where
  | int (i : Int)
  | str (s : String)
  | eptr (e : Val)
  | obj (n : Nat) (payload : Int)
  deriving DecidableEq, Repr

/-- The static type of a value. -/
def Val.typeOf : Val → Ty
  | .int _ => .int
  | .str _ => .string
  | .eptr _ => .exception_ptr
  | .obj n _ => .named n

/-- The arithmetic types, which convert into each other implicitly. -/
def Ty.arithmetic : Ty → Bool
  | .int => true
  | .short => true
  | .long => true
  | .double => true
  | _ => false

/-- Concept `constructible_from<T, A>` on the types of the model: identical
types, or two arithmetic types. -/
def constructible_from (T A : Ty) : Bool :=
  T = A || (T.arithmetic && A.arithmetic)

/-- Encoding of `constructible_from<tuple<Ts...>, As...>`: same length and
element-wise constructible. -/
def tuple_constructible_from : List Ty → List Ty → Bool
  | [], [] => true
  | t :: ts, a :: as => constructible_from t a && tuple_constructible_from ts as
  | _, _ => false

/-! ## Sender metadata: `sender_traits` (source lines 40-103) -/

/-- The three facets a typed sender declares: `value_types` (a variant of
tuples), `error_types` (a variant) and `sends_done`. -/
structure Traits where
  value_types : List (List Ty)
  error_types : List Ty
  sends_done : Bool
  deriving DecidableEq, Repr

/-- What the resolver needs to know about a class type `S`: the member
declarations tested by `__has_sender_types`, whether it derives from
`sender_base`, and whether it is awaitable (with which `__await_result_t`). -/
structure TyInfo where
  declared : Option Traits
  derives_sender_base : Bool
  awaitable : Option Ty
  deriving DecidableEq, Repr

/-- The possible forms of `sender_traits<S>`: the three base classes the
primary template can have, and `typed_swapped t` for metadata whose
`value_types<Tuple, Variant>` applies its two arguments in the opposite order, so
that it is `Tuple<Variant<Ts...>...>` over the shapes of `t` (this is what the
sender of the environment-write adaptor declares). -/
inductive TraitsBase where
  | typed (t : Traits)
  | sender_base
  | no_sender_traits
  | typed_swapped (t : Traits)
  deriving DecidableEq, Repr

/-- Concept `__has_sender_types<T>` on a type description. -/
def has_sender_types (S : TyInfo) : Bool := S.declared.isSome

/-- The class `__void_sender<SendsDone>`. -/
def void_sender (sendsDone : Bool) : Traits :=
  { value_types := [[]], error_types := [.exception_ptr], sends_done := sendsDone }

/-- The class `__sender_of<SendsDone, Ts...>`. -/
def sender_of_traits (sendsDone : Bool) (ts : List Ty) : Traits :=
  { value_types := [ts], error_types := [.exception_ptr], sends_done := sendsDone }

/-- The function `__sender_traits_base_fn<S>()`: the `if constexpr` chain of the
source, in its order. -/
def sender_traits_base_fn (S : TyInfo) : TraitsBase :=
  match S.declared with
  | some t => .typed t
  | none =>
    if S.derives_sender_base then .sender_base
    else
      match S.awaitable with
      | some T => if T = Ty.void then .typed (void_sender false)
                  else .typed (sender_of_traits false [T])
      | none => .no_sender_traits

/-- Whether `sender_traits<S>` names the member `__unspecialized`. -/
def TraitsBase.unspecialized : TraitsBase → Bool
  | .no_sender_traits => true
  | _ => false

/-- The metadata carried by a `sender_traits` base, if any
(`__has_sender_types<sender_traits<S>>`). -/
def TraitsBase.metadata : TraitsBase → Option Traits
  | .typed t => some t
  | .typed_swapped t => some t
  | _ => none

/-! ## Callables, signals and the observable world -/

/-- What a call of a user callable does: return a value, return nothing
(`void`), or throw. -/
inductive FnRet where
  | value (v : Val)
  | nothing
  | throws (e : Val)
  deriving DecidableEq, Repr

/-- A user callable `F`. `result` is `invoke_result_t<F, As...>` (`none` when `F`
is not invocable with `As...`, `some Ty.void` when it returns nothing); `call` is
what invoking it does; `id` identifies the callable in the trace. -/
structure Fn where
  id : Nat
  result : List Ty → Option Ty
  call : List Val → FnRet

/-- The three completion signals. -/
inductive Signal where
  | value (vs : List Val)
  | error (e : Val)
  | done
  deriving DecidableEq, Repr

/-- Observable events: a user callable is invoked, or a completion entry point
of a user receiver is entered. -/
inductive Event where
  | invoked (fn : Nat) (args : List Val)
  | set_value (r : Nat) (vs : List Val)
  | set_error (r : Nat) (e : Val)
  | set_done (r : Nat)
  deriving DecidableEq, Repr

/-- The member `data` of `__sync_wait::__impl::__state`:
`variant<monostate, Tuple, exception_ptr, set_done_t>`. -/
inductive SyncData where
  | monostate
  | value (t : List Val)
  | error (e : Val)
  | done
  deriving DecidableEq, Repr

/-- The part of the program state the model tracks: the observable events, the
member `data` of the state of `sync_wait`, and the number of times the
`delete` expression of `__submit::__impl::__rec::__wrap` has been evaluated on the
object allocated by `submit` (of interest only when `submit` is used). -/
structure World where
  trace : List Event
  data : SyncData
  deleted : Nat := 0
  deriving DecidableEq, Repr

/-- The initial world: nothing has happened, `data` holds `monostate`. -/
def World.init : World := { trace := [], data := .monostate }

/-- Append an event to the trace. -/
def World.emit (w : World) (e : Event) : World := { w with trace := w.trace ++ [e] }

/-- How a call returns control: normally, by an exception in flight, or not at
all because `std::terminate` was called. -/
inductive Flow where
  | normal
  | throwing (e : Val)
  | terminated
  deriving DecidableEq, Repr

/-- An exception leaving a `noexcept` function calls `std::terminate`. -/
def noexcept_ (r : World × Flow) : World × Flow :=
  match r.2 with
  | .throwing _ => (r.1, .terminated)
  | _ => r

/-- The tags a receiver can be called with: the three completion tags and the
query tags, which are numbered. -/
inductive Tag where
  | set_value
  | set_error
  | set_done
  | query (q : Nat)
  deriving DecidableEq, Repr

/-- The test `__one_of<Tag, set_value_t, set_error_t, set_done_t>`. -/
def Tag.is_completion : Tag → Bool
  | .query _ => false
  | _ => true

/-- One more evaluation of the `delete` expression of the wrapper of `submit`. -/
def World.delete_once (x : World × Flow) : World × Flow :=
  ({ x.1 with deleted := x.1.deleted + 1 }, x.2)

/-- The guard `_g` in the forwarding `tag_invoke` of the wrapper of `submit`,
applied to the outcome of the forwarded call: it is built with the pointer to
the heap object for a completion tag and with `nullptr` for any other tag, and
its destructor evaluates `delete` on what it holds when the forwarded call has
returned or thrown; `delete` on `nullptr` does nothing. -/
def submit_guard (t : Tag) (x : World × Flow) : World × Flow :=
  if t.is_completion then World.delete_once x else x

/-! ## Receivers (source lines 105-158, 650-664, 988-1050, 1155-1185, 1265-1289, 1393-1415) -/

/-- A receiver supplied by the caller: which `tag_invoke` overloads it offers
for the three completion tags, whether its `set_value` throws, and which query
tags it answers (`queries q = some v`: a `tag_invoke` for the query tag numbered
`q` on `const R&` is declared and returns `v`). -/
structure UserRecv where
  id : Nat
  accepts_value : List Ty → Bool
  accepts_error : Ty → Bool
  accepts_done : Bool
  value_throws : List Val → Option Val
  queries : Nat → Option Val := fun _ => none

/-- The receiver types of the development: a caller's receiver, the receiver
of `sync_wait` (`__state<Tuple>::__receiver`, with the element types of
`Tuple`), the receiver of `then` (`__then::__impl::__receiver<R, F>`), and the
receiver of the environment-write adaptor
(`__write_::__impl::__receiver_wrapper<CPO, Value, Receiver>`, with the number of
the query tag `CPO` and the value it answers with), and the receiver
`__submit::__impl::__rec<S, R>::__wrap` of `submit`, which points to the heap
object that holds the receiver `r` given to `submit`. -/
inductive Receiver where
  | user (u : UserRecv)
  | sync_wait (tuple : List Ty)
  | then_ (base : Receiver) (f : Fn)
  | write_ (q : Nat) (v : Val) (base : Receiver)
  | submit_wrap (r : Receiver)

/-- Concept `receiver<R, E>`: `set_done(r)` and `set_error(r, e)` are valid
and `noexcept`. The `then` receiver declares neither member, so the adaptor
forwards `set_error` when `receiver<Base, E>` holds. The write wrapper forwards
every tag other than its own query tag to the wrapped receiver, and the wrapper of
`submit` forwards every tag that the receiver it points to accepts. -/
def receiver : Receiver → Ty → Bool
  | .user u, E => u.accepts_done && u.accepts_error E
  | .sync_wait _, E => E = Ty.exception_ptr
  | .then_ base _, E => receiver base E
  | .write_ _ _ base, E => receiver base E
  | .submit_wrap r, E => receiver r E

/-- Concept `receiver_of<R, As...>`: `receiver<R>` and `set_value(r, as...)` is
valid. For the `then` receiver, `set_value` is valid when one of its two member
templates accepts `As...` (`F` is invocable and the base accepts the result, or
no argument when the result is `void`), or else when the base accepts `As...`
itself (the forwarding overload of the receiver adaptor). The member templates
count only when they are seen (`acc`). -/
def receiver_of (acc : Bool) : Receiver → List Ty → Bool
  | .user u, as => receiver (.user u) Ty.exception_ptr && u.accepts_value as
  | .sync_wait t, as => tuple_constructible_from t as
  | .then_ base f, as =>
      receiver base Ty.exception_ptr &&
        ((acc && match f.result as with
          | none => false
          | some T =>
              if T = Ty.void then receiver_of acc base [] else receiver_of acc base [T])
          || receiver_of acc base as)
  | .write_ _ _ base, as => receiver_of acc base as
  | .submit_wrap r, as => receiver_of acc r as

/-- Concept `__has_set_value<__then::__impl::__receiver<R, F>, As...>`: the
members are seen (`acc`) and one of the two member templates `set_value` of the
`then` receiver accepts `As...`. -/
def has_set_value (acc : Bool) (base : Receiver) (f : Fn) (as : List Ty) : Bool :=
  acc && match f.result as with
    | none => false
    | some T => if T = Ty.void then receiver_of acc base [] else receiver_of acc base [T]

/-! ## Completion signals at run time -/

/-- The call `set_value(r, vs...)`.
* caller's receiver: the entry is recorded; the body may throw;
* `sync_wait` receiver: `data.emplace<1>(vs...)`;
* `then` receiver: if a member `set_value` accepts the arguments, the callable
  is invoked and its result (or nothing, for `void`) is passed to the base; the
  member is declared `noexcept(true)`, so an exception thrown by the callable or
  by the base ends in `std::terminate`. Otherwise the call is forwarded to the
  base unchanged;
* write wrapper: forwarded to the wrapped receiver;
* wrapper of `submit`: the guard `_g` is built holding the pointer to the heap
  object, the call is forwarded to the receiver stored there, and the destructor
  of the guard evaluates `delete` on the pointer, whether the forwarded call
  returns or throws. -/
def Receiver.set_value (acc : Bool) : Receiver → List Val → World → World × Flow
  | .user u, vs, w =>
      match u.value_throws vs with
      | some e => (w.emit (.set_value u.id vs), .throwing e)
      | none => (w.emit (.set_value u.id vs), .normal)
  | .sync_wait _, vs, w => ({ w with data := .value vs }, .normal)
  | .then_ base f, vs, w =>
      if has_set_value acc base f (vs.map Val.typeOf) then
        match f.call vs with
        | .throws _ => (w.emit (.invoked f.id vs), .terminated)
        | .value v =>
            if f.result (vs.map Val.typeOf) = some Ty.void then
              noexcept_ (base.set_value acc [] (w.emit (.invoked f.id vs)))
            else noexcept_ (base.set_value acc [v] (w.emit (.invoked f.id vs)))
        | .nothing => noexcept_ (base.set_value acc [] (w.emit (.invoked f.id vs)))
      else base.set_value acc vs w
  | .write_ _ _ base, vs, w => base.set_value acc vs w
  | .submit_wrap r, vs, w => submit_guard .set_value (r.set_value acc vs w)

/-- The call `set_error(r, e)`; `noexcept` on every receiver. The `then`
receiver and the write wrapper forward it to their base; the wrapper of `submit`
forwards it and then evaluates `delete` on the heap object. -/
def Receiver.set_error : Receiver → Val → World → World × Flow
  | .user u, e, w => (w.emit (.set_error u.id e), .normal)
  | .sync_wait _, e, w => ({ w with data := .error e }, .normal)
  | .then_ base _, e, w => base.set_error e w
  | .write_ _ _ base, e, w => base.set_error e w
  | .submit_wrap r, e, w => submit_guard .set_error (r.set_error e w)

/-- The call `set_done(r)`; `noexcept` on every receiver. The `then` receiver
and the write wrapper forward it to their base; the wrapper of `submit` forwards
it and then evaluates `delete` on the heap object. -/
def Receiver.set_done : Receiver → World → World × Flow
  | .user u, w => (w.emit (.set_done u.id), .normal)
  | .sync_wait _, w => ({ w with data := .done }, .normal)
  | .then_ base _, w => base.set_done w
  | .write_ _ _ base, w => base.set_done w
  | .submit_wrap r, w => submit_guard .set_done (r.set_done w)

/-- Deliver a completion signal to a receiver. -/
def Receiver.complete (acc : Bool) (r : Receiver) : Signal → World → World × Flow
  | .value vs, w => r.set_value acc vs w
  | .error e, w => r.set_error e w
  | .done, w => r.set_done w

/-! ## Senders (source lines 160-196, 688-785, 1187-1260) -/

/-- A sender type supplied by the caller: its description for the trait
resolver, the receivers its `tag_invoke(connect_t, ...)` accepts (`connects`),
whether the type that `tag_invoke` returns models `operation_state`
(`op_state`), and the signal the type completes with: the one its operation
state delivers when started, and, when the type is awaitable, what awaiting it
does (`value [v]`: produces `v`; `value []`: produces nothing; `error p`: throws
the exception held by the `exception_ptr` `p`; `done`: calls `unhandled_done()`
on the awaiting promise). -/
structure UserSender where
  info : TyInfo
  connects : Receiver → Bool
  completes : Signal
  op_state : Receiver → Bool := fun _ => true

/-- The sender expressions of the development: the three factories, the `then`
sender `__then::__impl::__sender<S, F>`, a caller's sender (or awaitable), and
the sender of the environment-write adaptor `__write(s, CPO, value)` (with the
number of the query tag `CPO`). -/
inductive Sender where
  | just (vs : List Val)
  | just_error (e : Val)
  | just_done
  | then_ (s : Sender) (f : Fn)
  | user (u : UserSender)
  | write (s : Sender) (q : Nat) (v : Val)

/-- The value shape `then` derives from one value shape of its input:
`invoke_result_t<F, Ts...>` wrapped in `Tuple`, or the empty `Tuple` for `void`;
`none` when `F` is not invocable with `Ts...`. -/
def then_shape (f : Fn) (ts : List Ty) : Option (List Ty) :=
  match f.result ts with
  | none => none
  | some T => if T = Ty.void then some [] else some [T]

/-- Apply `then_shape` to every alternative; `none` as soon as one fails. -/
def then_shapes (f : Fn) : List (List Ty) → Option (List (List Ty))
  | [] => some []
  | ts :: rest =>
      match then_shape f ts, then_shapes f rest with
      | some t, some r => some (t :: r)
      | _, _ => none

/-- The class template `sender_traits<S>` for every sender of the model.
* `just(vs...)`: `__traits<set_value_t, Ts...>`;
* `just_error(e)`: `__traits<set_error_t, Error>`;
* `just_done()`: `__traits<set_done_t>`;
* `then(s, f)`: the partial specialisation when `s` is typed and `F` is
  invocable with every value shape; otherwise the primary template, and the
  `then` sender class declares no metadata, does not derive from `sender_base`
  and is not awaitable. Over an input with swapped metadata the specialisation
  would ask for `invoke_result_t<F, Variant<Ts...>...>`; the callables of the
  model take values, not type lists, so this is treated as not invocable;
* a caller's sender: the primary template;
* `__write(s, CPO, value)`: the class declares
  `value_types<Tuple, Variant> = sender_traits<Sender>::value_types<Variant, Tuple>`
  (the two arguments exchanged), `error_types` and `sends_done` of the input;
  over an input without metadata these members cannot be instantiated. -/
def sender_traits : Sender → TraitsBase
  | .just vs =>
      .typed { value_types := [vs.map Val.typeOf], error_types := [Ty.exception_ptr],
               sends_done := false }
  | .just_error e =>
      .typed { value_types := [], error_types := [e.typeOf], sends_done := false }
  | .just_done => .typed { value_types := [], error_types := [], sends_done := true }
  | .then_ s f =>
      match sender_traits s with
      | .typed t =>
          match then_shapes f t.value_types with
          | some vts =>
              .typed { value_types := vts, error_types := t.error_types,
                       sends_done := t.sends_done }
          | none => .no_sender_traits
      | _ => .no_sender_traits
  | .user u => sender_traits_base_fn u.info
  | .write s _ _ =>
      match sender_traits s with
      | .typed t => .typed_swapped t
      | .typed_swapped t => .typed t
      | _ => .no_sender_traits

/-- Concept `sender<S>` (all types of the model are move constructible). -/
def sender (s : Sender) : Bool := !(sender_traits s).unspecialized

/-- Concept `typed_sender<S>`. -/
def typed_sender (s : Sender) : Bool := sender s && (sender_traits s).metadata.isSome

/-! ## `connect` and `start` (source lines 282-301, 447-478, 725-759, 932-950, 1196-1203) -/

/-- Operation states. `just_op sig r` is `__just::__impl::__sender<CPO, Ts...>::__op<R>`
holding the signal `CPO(ts...)` and the receiver; `user_op` is the operation state
of a caller's sender; `awaitable_op sig r` is `__connect_awaitable_::__impl::__op<R>`,
the handle of the coroutine that awaits an awaitable completing with `sig` and
reports to `r`; `write_op v inner` is `__write_::__impl::__operation_`, holding the
written value and the operation state of the input sender. The `then` sender
has no operation state of its own: its `connect` returns the operation state of
its input sender. -/
inductive OpState where
  | just_op (sig : Signal) (r : Receiver)
  | user_op (sig : Signal) (r : Receiver)
  | awaitable_op (sig : Signal) (r : Receiver)
  | write_op (v : Val) (inner : OpState)

/-- The expression `connect(s, r)`; `none` when it is ill-formed. `rv` tells
whether `s` is an rvalue.
* The factories: the `tag_invoke(connect_t, ...)` friends of `__just::__impl::__sender`
  require `receiver_of<R, Ts...>`, where `Ts...` are the types stored in the
  sender (the values of `just`, the error of `just_error`, nothing for
  `just_done`); the operation state calls `CPO(r, ts...)`, which must be valid.
* `then(s, f)`: the sender adaptor calls the member `connect` when it is usable
  (`__has_connect`: the member is seen (`acc`), the sender is an rvalue and
  `sender_to<S, __receiver<R, F>>`),
  which connects the input sender to the `then` receiver; otherwise, when
  `sender_to<Base, R>` holds, it connects the input sender to `r` directly.
* a caller's sender: the first `operator()` of `connect_t` when its own
  `tag_invoke` accepts the receiver and returns an operation state; the second
  one, `__connect_awaitable`, when the type is awaitable and has no such
  `tag_invoke`, and then the receiver has to accept the awaited result
  (`receiver_of<R, T>`, or `receiver_of<R>` for `void`);
* `__write(s, CPO, value)`: requires `sender_to<Sender, __receiver_wrapper<...>>`
  and builds the operation holding the connected input sender. -/
def connect (acc rv : Bool) : Sender → Receiver → Option OpState
  | .just vs, r =>
      if receiver r Ty.exception_ptr && receiver_of acc r (vs.map Val.typeOf) then
        some (.just_op (.value vs) r)
      else none
  | .just_error e, r =>
      if receiver r Ty.exception_ptr && receiver_of acc r [e.typeOf] && receiver r e.typeOf then
        some (.just_op (.error e) r)
      else none
  | .just_done, r =>
      if receiver r Ty.exception_ptr && receiver_of acc r [] then
        some (.just_op .done r)
      else none
  | .then_ s f, r =>
      if sender (.then_ s f) && receiver r Ty.exception_ptr then
        if acc && rv && sender s && receiver (.then_ r f) Ty.exception_ptr
            && (connect acc true s (.then_ r f)).isSome then
          connect acc true s (.then_ r f)
        else if sender s && (connect acc rv s r).isSome then
          connect acc rv s r
        else none
      else none
  | .user u, r =>
      if sender (.user u) && receiver r Ty.exception_ptr && u.connects r && u.op_state r then
        some (.user_op u.completes r)
      else if receiver r Ty.exception_ptr && !u.connects r then
        match u.info.awaitable with
        | some T =>
            if receiver_of acc r (if T = Ty.void then [] else [T]) then
              some (.awaitable_op u.completes r)
            else none
        | none => none
      else none
  | .write s q v, r =>
      if sender (.write s q v) && receiver r Ty.exception_ptr && sender s
          && receiver (.write_ q v r) Ty.exception_ptr then
        match connect acc rv s (.write_ q v r) with
        | some inner => some (.write_op v inner)
        | none => none
      else none

/-- Concept `sender_to<S, R>` for an rvalue sender. -/
def sender_to (acc : Bool) (s : Sender) (r : Receiver) : Bool :=
  sender s && receiver r Ty.exception_ptr && (connect acc true s r).isSome

/-- The call `start(op)`.
* `just_op`: the function-try-block of the source: `CPO(r, ts...)`, and if that
  throws, `set_error(r, current_exception())`;
* `user_op`: delivers the sender's signal; `start` is `noexcept`;
* `awaitable_op`: resumes the coroutine of `__connect_awaitable`: the awaitable
  is awaited; its result is passed to `set_value`, and if that throws, the
  exception is caught and passed to `set_error`; an exception thrown by the
  awaitable is passed to `set_error`; `unhandled_done()` calls `set_done`;
* `write_op`: starts the inner operation. -/
def start (acc : Bool) : OpState → World → World × Flow
  | .just_op sig r, w =>
      match r.complete acc sig w with
      | (w1, .throwing e) => r.set_error (.eptr e) w1
      | res => res
  | .user_op sig r, w => noexcept_ (r.complete acc sig w)
  | .awaitable_op sig r, w =>
      match r.complete acc sig w with
      | (w1, .throwing e) => r.set_error (.eptr e) w1
      | res => res
  | .write_op _ inner, w => start acc inner w

/-! ## The adaptor `then` (source lines 1212-1231, 952-958) -/

/-- The second `operator()` of `then_t` is viable: `sender<S>` and
`sender<__sender<S, F>>`. -/
def then_default_viable (s : Sender) (f : Fn) : Bool :=
  sender s && sender (.then_ s f)

/-- The expression `then(s, f)`; `none` when it is ill-formed.
The first `operator()` is viable when `tag_invoke(then_t, s, f)` is found. The
only such `tag_invoke` in the source is the forwarding friend of the sender
adaptor (any tag but `connect_t`), which exists for a `then` sender and
requires `invocable<then_t, const Base&, F>`; it returns `then(base, f)`.
The second `operator()` builds `__sender<S, F>`. When both are viable the call
is ambiguous. -/
def then_t : Sender → Fn → Option Sender
  | .then_ base f0, g =>
      match sender (.then_ base f0) && (then_t base g).isSome,
            then_default_viable (.then_ base f0) g with
      | true, true => none
      | true, false => then_t base g
      | false, true => some (.then_ (.then_ base f0) g)
      | false, false => none
  | .just vs, g =>
      if then_default_viable (.just vs) g then some (.then_ (.just vs) g) else none
  | .just_error e, g =>
      if then_default_viable (.just_error e) g then some (.then_ (.just_error e) g) else none
  | .just_done, g =>
      if then_default_viable .just_done g then some (.then_ .just_done g) else none
  | .user u, g =>
      if then_default_viable (.user u) g then some (.then_ (.user u) g) else none
  | .write s q v, g =>
      if then_default_viable (.write s q v) g then some (.then_ (.write s q v) g) else none

/-- Whether `tag_invocable<then_t, S, F>` holds: the forwarding friend of the
sender adaptor base of a `then` sender. -/
def then_tag_invocable : Sender → Fn → Bool
  | .then_ base _, g => (then_t base g).isSome
  | _, _ => false

/-! ## `sync_wait` (source lines 1381-1450) -/

/-- The types `__single_t<Ts...>` for each of the given lists; `none` as soon as
one of the lists does not have exactly one element. -/
def single_each : List (List Ty) → Option (List Ty)
  | [] => some []
  | [T] :: rest =>
      match single_each rest with
      | some ts => some (T :: ts)
      | none => none
  | _ :: _ => none

/-- The alias `__sync_wait_result_t<S>`, that is
`sender_traits<S>::value_types<tuple, __single_t>`: the element types of the only
value shape; `none` when the alias is ill-formed (`__single_t` requires exactly
one argument). Over swapped metadata the alias is `tuple<__single_t<Ts...>...>`. -/
def sync_wait_result_t (s : Sender) : Option (List Ty) :=
  match sender_traits s with
  | .typed t =>
      match t.value_types with
      | [shape] => some shape
      | _ => none
  | .typed_swapped t => single_each t.value_types
  | _ => none

/-- What a call of `sync_wait` does. `blocks`: the waiter never leaves
`cv.wait` because no completion was stored. -/
inductive Outcome where
  | ill_formed
  | terminates
  | throws (e : Val)
  | returns (r : Option (List Val))
  | blocks
  deriving DecidableEq, Repr

/-- The outcome of a call together with the events it produced. -/
structure Result where
  outcome : Outcome
  trace : List Event
  deriving DecidableEq, Repr

/-- The exception rethrown by `rethrow_exception(p)`. -/
def rethrow_exception : Val → Val
  | .eptr e => e
  | v => v

/-- The body of the first `operator()` of `sync_wait_t`: connect to the
receiver of a fresh state, start, wait until `data.index() != 0`, then rethrow
(index 2), return `nullopt` (index 3) or return the stored tuple (index 1). -/
def sync_wait_default (acc rv : Bool) (s : Sender) : Result :=
  match sync_wait_result_t s with
  | none => { outcome := .ill_formed, trace := [] }
  | some tuple =>
      match connect acc rv s (.sync_wait tuple) with
      | none => { outcome := .ill_formed, trace := [] }
      | some op =>
          match start acc op World.init with
          | (w, .terminated) => { outcome := .terminates, trace := w.trace }
          | (w, .throwing e) => { outcome := .throws e, trace := w.trace }
          | (w, .normal) =>
              match w.data with
              | .monostate => { outcome := .blocks, trace := w.trace }
              | .error p => { outcome := .throws (rethrow_exception p), trace := w.trace }
              | .done => { outcome := .returns none, trace := w.trace }
              | .value t => { outcome := .returns (some t), trace := w.trace }

/-- The first `operator()` of `sync_wait_t` is viable: `typed_sender<S>` and the
return type `optional<__sync_wait_result_t<S>>` exists. -/
def sync_wait_default_viable (s : Sender) : Bool :=
  typed_sender s && (sync_wait_result_t s).isSome

/-- The expression `sync_wait(s)` is well-formed as an unevaluated operand
(`invocable<sync_wait_t, S>`): exactly one `operator()` is viable. The second
one requires `tag_invoke(sync_wait_t, s)`, which only the forwarding friend of
the sender adaptor base of a `then` sender provides, under the condition
`invocable<sync_wait_t, const Base&>`. -/
def sync_wait_invocable : Sender → Bool
  | .then_ base f =>
      xor (sender (.then_ base f) && sync_wait_invocable base)
          (sync_wait_default_viable (.then_ base f))
  | .just vs => sync_wait_default_viable (.just vs)
  | .just_error e => sync_wait_default_viable (.just_error e)
  | .just_done => sync_wait_default_viable .just_done
  | .user u => sync_wait_default_viable (.user u)
  | .write s q v => sync_wait_default_viable (.write s q v)

/-- Whether `tag_invocable<sync_wait_t, S>` holds. -/
def sync_wait_tag_invocable : Sender → Bool
  | .then_ base _ => sync_wait_invocable base
  | _ => false

/-- The call `sync_wait(s)`. Both `operator()` viable: ambiguous. Only the
second: `tag_invoke(sync_wait_t, s)`, which the forwarding friend answers with
`sync_wait(base)` on the (lvalue) input sender. Only the first: its body. -/
def sync_wait (acc rv : Bool) : Sender → Result
  | .then_ base f =>
      match sender (.then_ base f) && sync_wait_invocable base,
            sync_wait_default_viable (.then_ base f) with
      | true, true => { outcome := .ill_formed, trace := [] }
      | true, false => sync_wait acc false base
      | false, true => sync_wait_default acc rv (.then_ base f)
      | false, false => { outcome := .ill_formed, trace := [] }
  | .just vs =>
      if sync_wait_default_viable (.just vs) then sync_wait_default acc rv (.just vs)
      else { outcome := .ill_formed, trace := [] }
  | .just_error e =>
      if sync_wait_default_viable (.just_error e) then sync_wait_default acc rv (.just_error e)
      else { outcome := .ill_formed, trace := [] }
  | .just_done =>
      if sync_wait_default_viable .just_done then sync_wait_default acc rv .just_done
      else { outcome := .ill_formed, trace := [] }
  | .user u =>
      if sync_wait_default_viable (.user u) then sync_wait_default acc rv (.user u)
      else { outcome := .ill_formed, trace := [] }
  | .write s q v =>
      if sync_wait_default_viable (.write s q v) then sync_wait_default acc rv (.write s q v)
      else { outcome := .ill_formed, trace := [] }

/-! ## Adaptor closures and piping (source lines 824-896, 1227-1230) -/

/-- An argument bound by `__binder_back`: a callable, a value, or a stateless
tag object. -/
inductive Arg where
  | fn (f : Fn)
  | val (v : Val)
  | tag (n : Nat)

/-- A sender adaptor `Fn` as `__binder_back` sees it: something that can be
invoked with a sender followed by arguments and returns a sender, or is not
invocable with them (`none`). -/
abbrev Adaptor := Sender → List Arg → Option Sender

/-- The adaptor object `then` (type `then_t`) invoked with a sender and bound
arguments: only `then(s, f)` with one callable is a valid call. -/
def then_adaptor : Adaptor
  | s, [.fn f] => then_t s f
  | _, _ => none

/-- Sender adaptor closures: `__binder_back<Fn, As...>` with its members `fn`
and `as`, and `__compose<A, B>` with its members `a_` and `b_`. -/
inductive Closure where
  | binder_back (fn : Adaptor) (as : List Arg)
  | compose (a_ : Closure) (b_ : Closure)

/-- The call `c(s)` of a closure on a sender; `none` when ill-formed.
* `__binder_back::operator()`: requires `sender<S>` and `invocable<Fn, S, As...>`;
  returns `fn(s, as...)`;
* `__compose::operator()`: requires `sender<S>`, `invocable<A, S>` and
  `invocable<B, invoke_result_t<A, S>>`; returns `b_(a_(s))`. -/
def Closure.call : Closure → Sender → Option Sender
  | .binder_back fn as, s => if sender s then fn s as else none
  | .compose a_ b_, s =>
      if sender s then
        match a_.call s with
        | some s1 => b_.call s1
        | none => none
      else none

/-- The third `operator()` of `then_t`: `then(f)` is
`__binder_back<then_t, F>{{}, {}, {f}}`. -/
def then_closure (f : Fn) : Closure := .binder_back then_adaptor [.fn f]

/-- The `operator|` on two closures: `__compose{a, b}`. -/
def pipe_closure (a b : Closure) : Closure := .compose a b

/-- The `operator|` on a sender and a closure: requires `sender<S>` and
`invocable<C, S>`; returns `c(s)`. -/
def pipe (s : Sender) (c : Closure) : Option Sender :=
  if sender s then c.call s else none

/-- Piping when the left operand is itself the result of an expression that
may be ill-formed. -/
def pipe? (s : Option Sender) (c : Closure) : Option Sender :=
  match s with
  | some s1 => pipe s1 c
  | none => none

/-- The call `sync_wait(e)` on the temporary produced by the expression `e`. -/
def sync_wait? (acc : Bool) (s : Option Sender) : Result :=
  match s with
  | some s1 => sync_wait acc true s1
  | none => { outcome := .ill_formed, trace := [] }

/-! ## The signal a sender chain starts from -/

/-- The completion signal produced at the source of a sender expression: the
signal the factory (or the caller's sender) at the bottom of a chain of `then`
adaptors hands to the receiver it was connected to. -/
def Sender.source_signal : Sender → Signal
  | .just vs => .value vs
  | .just_error e => .error e
  | .just_done => .done
  | .then_ s _ => s.source_signal
  | .user u => u.completes
  | .write s _ _ => s.source_signal

/-! ## Convenience concepts on senders (source lines 174-196) -/

/-- Modelled from the spec: the concept `sender_of<S, Args...>`, which the tests
use but the header at hand does not declare. The specification (§4.4) gives it
as "the sender has a single value shape equal to `args…`"; the sender has to be
typed for it to have value shapes at all. Types are compared for identity, with
no conversion. -/
def sender_of (s : Sender) (args : List Ty) : Bool :=
  typed_sender s &&
    match (sender_traits s).metadata with
    | some t => decide (t.value_types = [args])
    | none => false

/-- The alias `__single_or_void_t<As...>`: requires at most one argument and is
the first of `As..., void`. -/
def single_or_void_t : List Ty → Option Ty
  | [] => some Ty.void
  | [A] => some A
  | _ => none

/-- The alias `__single_or_void_t` applied to each of the given lists; `none` as
soon as one application is ill-formed. -/
def single_or_void_each : List (List Ty) → Option (List Ty)
  | [] => some []
  | ts :: rest =>
      match single_or_void_t ts, single_or_void_each rest with
      | some T, some r => some (T :: r)
      | _, _ => none

/-- The alias `__single_sender_value_t<S>`, that is
`sender_traits<S>::value_types<__single_or_void_t, __single_or_void_t>`: the same
alias serves as `Tuple` and as `Variant`, so it is applied to every shape and
then to the list of the results (in either order of the two arguments). -/
def single_sender_value_t (s : Sender) : Option Ty :=
  match (sender_traits s).metadata with
  | some t =>
      match single_or_void_each t.value_types with
      | some ts => single_or_void_t ts
      | none => none
  | none => none

/-- Concept `__single_typed_sender<S>`: `typed_sender<S>` and
`__single_sender_value_t<S>` names a type. -/
def single_typed_sender (s : Sender) : Bool :=
  typed_sender s && (single_sender_value_t s).isSome

/-! ## The stop-token query (source lines 256-267) -/

/-- The number of the query tag `get_stop_token_t` (`get_scheduler_t` is `0`,
`get_allocator_t` is `1`). -/
def get_stop_token_tag : Nat := 2

/-- What `get_stop_token` returns: the `never_stop_token` of the defaulted
overload, or the value a `tag_invoke` returned. -/
inductive StopToken where
  | never_stop_token
  | of (v : Val)
  deriving DecidableEq, Repr

/-- The call `get_stop_token(r)`; `none` when it is ill-formed (`r` does not
model `receiver`). The concept `stoppable_token` comes from a header that is not
among the sources and is a parameter. The first `operator()` requires a
`tag_invoke` for `get_stop_token_t` on `const R&` whose result models
`stoppable_token`; it is the more constrained one and wins when viable. The
second returns `never_stop_token{}` for every receiver and is `noexcept`.
* caller's receiver: its own `tag_invoke`, if it declares one;
* `sync_wait` receiver: declares none;
* `then` receiver: the forwarding friend of the receiver adaptor asks the base;
* write wrapper: its own value when the written tag is `get_stop_token_t`,
  otherwise the forwarding friend asks the wrapped receiver;
* wrapper of `submit`: its forwarding friend asks the receiver it points to. -/
def get_stop_token (stoppable : Ty → Bool) : Receiver → Option StopToken
  | .user u =>
      if receiver (.user u) Ty.exception_ptr then
        match u.queries get_stop_token_tag with
        | some v => if stoppable v.typeOf then some (.of v) else some .never_stop_token
        | none => some .never_stop_token
      else none
  | .sync_wait _ => some .never_stop_token
  | .then_ base _ => get_stop_token stoppable base
  | .write_ q v base =>
      if receiver base Ty.exception_ptr then
        if q = get_stop_token_tag then
          if stoppable v.typeOf then some (.of v) else some .never_stop_token
        else get_stop_token stoppable base
      else none
  | .submit_wrap r => get_stop_token stoppable r

/-- What `tag_invoke(get_stop_token_t, const r&)` returns, `none` when no such
`tag_invoke` is declared for the receiver. -/
def stop_token_dispatcher (stoppable : Ty → Bool) : Receiver → Option StopToken
  | .user u => (u.queries get_stop_token_tag).map StopToken.of
  | .sync_wait _ => none
  | .then_ base _ => get_stop_token stoppable base
  | .write_ q v base =>
      if q = get_stop_token_tag then some (.of v) else get_stop_token stoppable base
  | .submit_wrap r => get_stop_token stoppable r

/-! ## What `connect` itself runs (source lines 307-360, 744-758, 1196-1203, 1293-1303) -/

/-- The two awaiters a promise can return from `initial_suspend`. -/
inductive Suspend where
  | suspend_always
  | suspend_never
  deriving DecidableEq, Repr

/-- The member `__promise_base::initial_suspend` of the coroutine of
`__connect_awaitable`. -/
def initial_suspend : Suspend := .suspend_always

/-- What building an operation state does to the world.
* `just_op`: aggregate initialisation from the stored values and the receiver;
* `user_op`: a caller's `connect` is taken to build its operation state only;
* `awaitable_op`: the call of the coroutine `__connect_awaitable::__impl`: the
  promise is built, the return object is taken, and the body runs up to the
  initial suspend point: not at all after `suspend_always`, and as far as
  `start` would take it after `suspend_never`;
* `write_op`: the constructor connects the input sender. -/
def OpState.construct (acc : Bool) : OpState → World → World × Flow
  | .just_op _ _, w => (w, .normal)
  | .user_op _ _, w => (w, .normal)
  | .awaitable_op sig r, w =>
      match initial_suspend with
      | .suspend_always => (w, .normal)
      | .suspend_never => start acc (.awaitable_op sig r) w
  | .write_op _ inner, w => inner.construct acc w

/-- The call `connect(s, r)` as an action on the world: the operation state it
returns and the world it leaves. The `connect` of the `then` sender builds the
`then` receiver (moving the callable into it) and connects the input sender. -/
def connect_run (acc rv : Bool) (s : Sender) (r : Receiver) (w : World) :
    Option (OpState × (World × Flow)) :=
  match connect acc rv s r with
  | some op => some (op, op.construct acc w)
  | none => none

/-! ## Counting completions and comparing them with the metadata -/

/-- Whether an event is the entry of a completion function of the caller's
receiver numbered `id`. -/
def Event.completion_on (id : Nat) : Event → Bool
  | .invoked _ _ => false
  | .set_value r _ => r = id
  | .set_error r _ => r = id
  | .set_done r => r = id

/-- The number of completion entries of the receiver numbered `id` in a trace. -/
def completions_on (id : Nat) (tr : List Event) : Nat :=
  (tr.filter (Event.completion_on id)).length

/-- A callable that never throws. -/
def Fn.nothrow (f : Fn) : Prop := ∀ vs e, f.call vs ≠ FnRet.throws e

/-- The senders built from `just`, `just_error`, `just_done` and `then` only. -/
def Sender.factory_then : Sender → Bool
  | .just _ => true
  | .just_error _ => true
  | .just_done => true
  | .then_ s _ => s.factory_then
  | .user _ => false
  | .write _ _ _ => false

/-- Every callable passed to a `then` inside the sender never throws. -/
def Sender.fns_nothrow : Sender → Prop
  | .then_ s f => f.nothrow ∧ s.fns_nothrow
  | .write s _ _ => s.fns_nothrow
  | _ => True

/-- The receivers that `connect` hands to the source of a sender built from the
factories and `then`, when the sender is connected to the caller's receiver `u`:
`u` itself under layers of `then` receivers whose callables never throw. -/
def Receiver.chain_over (u : UserRecv) : Receiver → Prop
  | .user u1 => u1 = u
  | .then_ base f => f.nothrow ∧ base.chain_over u
  | .sync_wait _ => False
  | .write_ _ _ _ => False
  | .submit_wrap _ => False

/-- Whether a completion entry is among the completions the metadata `t`
declares: a `set_value` by the types of its arguments, a `set_error` by the type
of the error, `set_done` by `sends_done`. -/
def Traits.advertises (t : Traits) : Event → Bool
  | .invoked _ _ => true
  | .set_value _ vs => decide (vs.map Val.typeOf ∈ t.value_types)
  | .set_error _ e => decide (e.typeOf ∈ t.error_types)
  | .set_done _ => t.sends_done

/-! ## Concrete callables, receivers and senders used as inputs

The callables of the specification's end-to-end scenarios and the sender
`my_sender0` of `test_concepts_sender.cpp`. -/

/-- The callable `(a, b) → a + b` on two `int`s. -/
def add_fn : Fn where
  id := 1
  result := fun ts => if ts = [Ty.int, Ty.int] then some Ty.int else none
  call := fun vs =>
    match vs with
    | [.int a, .int b] => .value (.int (a + b))
    | _ => .throws (.int 0)

/-- The callable `x → x * x` on one `int`. -/
def square_fn : Fn where
  id := 2
  result := fun ts => if ts = [Ty.int] then some Ty.int else none
  call := fun vs =>
    match vs with
    | [.int a] => .value (.int (a * a))
    | _ => .throws (.int 0)

/-- The callable `x → x + 1` on one `int`. -/
def succ_fn : Fn where
  id := 3
  result := fun ts => if ts = [Ty.int] then some Ty.int else none
  call := fun vs =>
    match vs with
    | [.int a] => .value (.int (a + 1))
    | _ => .throws (.int 0)

/-- The callable `() → throw 999`, declared to return nothing. -/
def boom_fn : Fn where
  id := 4
  result := fun ts => if ts = [] then some Ty.void else none
  call := fun _ => .throws (.int 999)

/-- The callable `x → 0`, generic in its single argument. -/
def zero_fn : Fn where
  id := 5
  result := fun ts => if ts.length = 1 then some Ty.int else none
  call := fun _ => .value (.int 0)

/-- A caller's receiver that accepts every completion and never throws. -/
def any_recv : UserRecv where
  id := 0
  accepts_value := fun _ => true
  accepts_error := fun _ => true
  accepts_done := true
  value_throws := fun _ => none

/-- A sender with the metadata of `my_sender0` of the tests (one empty value
shape, error `exception_ptr`, `sends_done = true`) and the `connect` of their
`simple_sender` (a template that accepts every receiver), with an operation
state that completes with the given signal. -/
def my_sender0 (sig : Signal) : UserSender where
  info := { declared := some { value_types := [[]], error_types := [Ty.exception_ptr],
                               sends_done := true },
            derives_sender_base := false, awaitable := none }
  connects := fun _ => true
  completes := sig

/-- The type `empty_sender` of the tests: derives from `sender_base`, declares
nothing else. -/
def empty_sender : UserSender where
  info := { declared := none, derives_sender_base := true, awaitable := none }
  connects := fun _ => false
  completes := .done

/-- The type `simple_sender` of the tests: derives from `sender_base` and
declares a `tag_invoke` for `connect_t` that accepts every receiver and returns
the operation state `oper`. -/
def simple_sender : UserSender where
  info := { declared := none, derives_sender_base := true, awaitable := none }
  connects := fun _ => true
  completes := .done

/-- A type that derives from `sender_base`, is awaitable with result `int`
(awaiting it produces `5`), and declares no `tag_invoke` for `connect_t`. -/
def awaitable_base_sender : UserSender where
  info := { declared := none, derives_sender_base := true, awaitable := some Ty.int }
  connects := fun _ => false
  completes := .value [.int 5]

/-- An awaitable with result `int` and no `tag_invoke` for `connect_t`, whose
await calls `unhandled_done()` on the awaiting promise. -/
def cancelled_awaitable : UserSender where
  info := { declared := none, derives_sender_base := false, awaitable := some Ty.int }
  connects := fun _ => false
  completes := .done

/-- A sender with the metadata of `my_sender_int` of the tests (the single value
shape `(int)`, error `exception_ptr`, `sends_done = true`). -/
def my_sender_int (sig : Signal) : UserSender where
  info := { declared := some { value_types := [[Ty.int]], error_types := [Ty.exception_ptr],
                               sends_done := true },
            derives_sender_base := false, awaitable := none }
  connects := fun _ => true
  completes := sig

/-- A sender with the metadata of `multival_sender` of the tests (the two value
shapes `(int, double)` and `(short, long)`). -/
def multival_sender : UserSender where
  info := { declared := some { value_types := [[Ty.int, Ty.double], [Ty.short, Ty.long]],
                               error_types := [Ty.exception_ptr], sends_done := false },
            derives_sender_base := false, awaitable := none }
  connects := fun _ => true
  completes := .done

/-- A caller's receiver that accepts every completion and whose `set_value`
throws `13` whatever it is given. -/
def throwing_recv : UserRecv where
  id := 1
  accepts_value := fun _ => true
  accepts_error := fun _ => true
  accepts_done := true
  value_throws := fun _ => some (.int 13)

/-- A caller's receiver that accepts every completion, never throws, and
answers `get_stop_token` with the token `obj 9 1`. -/
def token_recv : UserRecv where
  id := 2
  accepts_value := fun _ => true
  accepts_error := fun _ => true
  accepts_done := true
  value_throws := fun _ => none
  queries := fun q => if q = get_stop_token_tag then some (.obj 9 1) else none

/-- The callable `x → "n"` from one `int` to a string. -/
def label_fn : Fn where
  id := 6
  result := fun ts => if ts = [Ty.int] then some Ty.string else none
  call := fun _ => .value (.str "n")

/-- A caller's receiver that accepts `set_value(int)` only (and every error and
`set_done`), and never throws. -/
def int_recv : UserRecv where
  id := 3
  accepts_value := fun ts => decide (ts = [Ty.int])
  accepts_error := fun _ => true
  accepts_done := true
  value_throws := fun _ => none

/-! ## Receiver queries in general (source lines 226-275, 1034-1040, 1274-1284, 653-663) -/

/-- The call `Q(r)` of a query tag `Q` (numbered `q`) that has no defaulted
overload, in the manner of `get_allocator_t`: it requires `receiver<R>` and a
`tag_invoke` for `Q` on `const R&`, and returns what that `tag_invoke` returns;
`none` when the call is ill-formed.
* caller's receiver: its own `tag_invoke`, if it declares one;
* `sync_wait` receiver: declares none;
* `then` receiver: the forwarding friend of the receiver adaptor, which requires
  `invocable<Q, const Base&>` and returns `Q(base)`;
* write wrapper: its own value for the tag it was built with; for every other
  tag the forwarding friend, which returns `Q(receiver)`;
* wrapper of `submit`: its forwarding friend returns `Q(r)`; the guard is built
  holding `nullptr` because `Q` is not a completion tag, so nothing is deleted. -/
def Receiver.query (q : Nat) : Receiver → Option Val
  | .user u => if receiver (.user u) Ty.exception_ptr then u.queries q else none
  | .sync_wait _ => none
  | .then_ base _ => base.query q
  | .write_ q0 v base =>
      if receiver base Ty.exception_ptr then
        if q = q0 then some v else base.query q
      else none
  | .submit_wrap r => r.query q

/-- A query `Q(wrap)` on the wrapper of `submit` as an action on the world: the
answer of the receiver it points to, and the world after the guard (built for
the tag `Q`) has been destroyed. -/
def submit_wrap_query (r : Receiver) (q : Nat) (w : World) : Option Val × World :=
  ((Receiver.submit_wrap r).query q, (submit_guard (.query q) (w, Flow.normal)).1)

/-! ## The generic receiver adaptor (source lines 970-1050) -/

/-- A class `Derived` that derives from `receiver_adaptor<Base, Derived>`, as the
adaptor sees it: the values of the concepts `__has_set_value<Derived, As...>`,
`__has_set_error<Derived, A>` and `__has_set_done<Derived>` (a member counts
only when the concept, declared at namespace scope, finds it), what the members
do when they are called, and whether `set_error` and `set_done` are declared
`noexcept` (the adaptor checks this with a `static_assert`). -/
structure RecvDerived where
  has_set_value : List Ty → Bool
  set_value : List Val → World → World × Flow
  has_set_error : Ty → Bool
  set_error : Val → World → World × Flow
  set_error_noexcept : Bool
  has_set_done : Bool
  set_done : World → World × Flow
  set_done_noexcept : Bool

/-- Which of the two `tag_invoke` friends the adaptor declares for a completion
tag is selected: the one that calls the member of `Derived`, or the one that
forwards to the base. -/
inductive Selected where
  | member
  | base
  deriving DecidableEq, Repr

/-- The two friends for `set_value_t`: the first requires
`__has_set_value<Derived, As...>`; the second requires its negation and
`receiver_of<Base, As...>`. `none`: neither is viable. The class template itself
requires `receiver<Base>`. -/
def receiver_adaptor_select_set_value (acc : Bool) (d : RecvDerived) (b : Receiver)
    (as : List Ty) : Option Selected :=
  if receiver b Ty.exception_ptr then
    if d.has_set_value as then some .member
    else if receiver_of acc b as then some .base
    else none
  else none

/-- The two friends for `set_error_t`: the first requires
`__has_set_error<Derived, A>`; the second requires its negation and
`receiver<Base, A>`. -/
def receiver_adaptor_select_set_error (d : RecvDerived) (b : Receiver) (A : Ty) :
    Option Selected :=
  if receiver b Ty.exception_ptr then
    if d.has_set_error A then some .member
    else if receiver b A then some .base
    else none
  else none

/-- The two friends for `set_done_t`: the first requires `__has_set_done<Derived>`;
the second has no `requires` clause, so it is always viable, and when both are
viable the first is chosen because it is the more constrained one. -/
def receiver_adaptor_select_set_done (d : RecvDerived) (b : Receiver) : Option Selected :=
  if receiver b Ty.exception_ptr then
    if d.has_set_done then some .member else some .base
  else none

/-- The call `set_value(adaptor, vs...)` on an object of `Derived` whose adaptor
base holds `b`; `none` when it is ill-formed. -/
def receiver_adaptor_set_value (acc : Bool) (d : RecvDerived) (b : Receiver)
    (vs : List Val) (w : World) : Option (World × Flow) :=
  match receiver_adaptor_select_set_value acc d b (vs.map Val.typeOf) with
  | some .member => some (d.set_value vs w)
  | some .base => some (b.set_value acc vs w)
  | none => none

/-- The call `set_error(adaptor, e)`. The friend that calls the member is
declared `noexcept` and asserts that the member is. -/
def receiver_adaptor_set_error (d : RecvDerived) (b : Receiver) (e : Val) (w : World) :
    Option (World × Flow) :=
  match receiver_adaptor_select_set_error d b e.typeOf with
  | some .member => if d.set_error_noexcept then some (noexcept_ (d.set_error e w)) else none
  | some .base => some (b.set_error e w)
  | none => none

/-- The call `set_done(adaptor)`. The friend that calls the member is declared
`noexcept` and asserts that the member is. -/
def receiver_adaptor_set_done (d : RecvDerived) (b : Receiver) (w : World) :
    Option (World × Flow) :=
  match receiver_adaptor_select_set_done d b with
  | some .member => if d.set_done_noexcept then some (noexcept_ (d.set_done w)) else none
  | some .base => some (b.set_done w)
  | none => none

/-- The call `Q(adaptor)` of a query tag: the last friend of the adaptor accepts
every tag other than the three completion tags, requires
`invocable<Q, const Base&>` and returns `Q(base)`. -/
def receiver_adaptor_query (b : Receiver) (q : Nat) : Option Val :=
  if receiver b Ty.exception_ptr then b.query q else none

/-- The two member templates `set_value` of `__then::__impl::__receiver<R, F>`:
the callable is invoked and its result (nothing, when it returns `void`) is
passed to the base; both are declared `noexcept(true)`. -/
def then_receiver_set_value (acc : Bool) (base : Receiver) (f : Fn) (vs : List Val)
    (w : World) : World × Flow :=
  match f.call vs with
  | .throws _ => (w.emit (.invoked f.id vs), .terminated)
  | .value v =>
      if f.result (vs.map Val.typeOf) = some Ty.void then
        noexcept_ (base.set_value acc [] (w.emit (.invoked f.id vs)))
      else noexcept_ (base.set_value acc [v] (w.emit (.invoked f.id vs)))
  | .nothing => noexcept_ (base.set_value acc [] (w.emit (.invoked f.id vs)))

/-- The class `__then::__impl::__receiver<R, F>` as the receiver adaptor sees it:
it declares the member `set_value` only. -/
def then_receiver (acc : Bool) (base : Receiver) (f : Fn) : RecvDerived where
  has_set_value := has_set_value acc base f
  set_value := then_receiver_set_value acc base f
  has_set_error := fun _ => false
  set_error := fun _ w => (w, .normal)
  set_error_noexcept := true
  has_set_done := false
  set_done := fun w => (w, .normal)
  set_done_noexcept := true

/-! ## The generic operation-state adaptor (source lines 295-301, 1052-1090) -/

/-- What the concept `operation_state` asks of a type: whether it is a reference
type, whether it is destructible, and whether `start(o)` on an lvalue of it is
valid and `noexcept`. -/
structure OpTy where
  reference : Bool
  destructible : Bool
  start_noexcept : Bool
  deriving DecidableEq, Repr

/-- The trait `is_object_v<T>` on the types described by `OpTy` (none of them is
a function type or `void`): false exactly for reference types. -/
def is_object_v (T : OpTy) : Bool := !T.reference

/-- Concept `operation_state<O>`:
`destructible<O> && is_object_v<O> && requires (O& o) { {start(o)} noexcept; }`. -/
def operation_state (T : OpTy) : Bool :=
  T.destructible && is_object_v T && T.start_noexcept

/-- The type `T&`: a reference type; references are destructible; `T& &` is
`T&`, so `start` on an lvalue is what it is for `T`. -/
def OpTy.lvalue_ref (T : OpTy) : OpTy :=
  { reference := true, destructible := true, start_noexcept := T.start_noexcept }

/-- The type of every operation state of the model: a class type with a
`noexcept` `tag_invoke` for `start_t`. -/
def OpState.type (_ : OpState) : OpTy :=
  { reference := false, destructible := true, start_noexcept := true }

/-- A class `Derived` that derives from `operation_state_adaptor<Base, Derived>`,
as the adaptor sees it: the value of `__has_start<Derived>`, what the member
`start` does, and whether it is declared `noexcept`. -/
structure OpDerived where
  has_start : Bool
  start : World → World × Flow
  start_noexcept : Bool

/-- The call `start(derived)` on an object of `Derived` whose adaptor base
holds `b` (of type `Base`); `none` when no `tag_invoke` for `start_t` is viable
or the program is otherwise ill-formed. The class template requires
`operation_state<Base>`. Its first friend requires `__has_start<Derived>` and
calls the member; its second requires `!__has_start<Derived>` and
`operation_state<Base&>`, and forwards to the base; the third friend excludes
`start_t`. -/
def operation_state_adaptor_start (acc : Bool) (d : OpDerived) (b : OpState) (w : World) :
    Option (World × Flow) :=
  if operation_state b.type then
    if d.has_start then
      if d.start_noexcept then some (noexcept_ (d.start w)) else none
    else if operation_state b.type.lvalue_ref then some (start acc b w)
    else none
  else none

/-! ## `submit` (source lines 645-686, 952-958) -/

/-- Concept `sender_to<S, R>` for a sender expression of the given value
category. -/
def sender_to_cat (acc rv : Bool) (s : Sender) (r : Receiver) : Bool :=
  sender s && receiver r Ty.exception_ptr && (connect acc rv s r).isSome

/-- The body of the first `operator()` of `submit_t`:
`start((new __rec<S, R>{s, r})->__state)`, where the constructor of `__rec` stores
`r` and initialises `__state` with `connect(s, __wrap{this})`. `none`: that
`connect` is ill-formed. -/
def submit_default (acc rv : Bool) (s : Sender) (r : Receiver) (w : World) :
    Option (World × Flow) :=
  match connect acc rv s (.submit_wrap r) with
  | some op => some (start acc op w)
  | none => none

/-- Whether `tag_invocable<submit_t, S, R>` holds. The only `tag_invoke` the
source declares that accepts `submit_t` is the forwarding friend of the sender
adaptor base of a `then` sender (any tag but `connect_t`), under the condition
`invocable<submit_t, const Base&, R>`. -/
def submit_tag_invocable (acc : Bool) : Sender → Receiver → Bool
  | .then_ base _, r => sender_to_cat acc false base r
  | _, _ => false

/-- The call `submit(s, r)`; `none` when it is ill-formed. Both `operator()`
require `receiver<R>` and `sender_to<S, R>`; the second also requires
`tag_invocable<submit_t, S, R>`, so it is the more constrained one and is chosen
when viable. It calls `tag_invoke(submit_t, s, r)`, which the forwarding friend
answers with `submit(base, r)` on the (lvalue) input sender. -/
def submit (acc rv : Bool) : Sender → Receiver → World → Option (World × Flow)
  | .then_ base f, r, w =>
      if sender_to_cat acc rv (.then_ base f) r then
        if submit_tag_invocable acc (.then_ base f) r then submit acc false base r w
        else submit_default acc rv (.then_ base f) r w
      else none
  | .just vs, r, w =>
      if sender_to_cat acc rv (.just vs) r then submit_default acc rv (.just vs) r w else none
  | .just_error e, r, w =>
      if sender_to_cat acc rv (.just_error e) r then submit_default acc rv (.just_error e) r w
      else none
  | .just_done, r, w =>
      if sender_to_cat acc rv .just_done r then submit_default acc rv .just_done r w else none
  | .user u, r, w =>
      if sender_to_cat acc rv (.user u) r then submit_default acc rv (.user u) r w else none
  | .write s q v, r, w =>
      if sender_to_cat acc rv (.write s q v) r then submit_default acc rv (.write s q v) r w
      else none

/-! ## `as_awaitable` (source lines 481-587) -/

/-- The member `result_` of `__awaitable_base`, of type
`variant<monostate, __value_or_void_t<Value>, exception_ptr>`; the value
alternative holds the arguments it was built from (none for `__void`). -/
inductive Expected where
  | monostate
  | value (vs : List Val)
  | error (p : Val)
  deriving DecidableEq, Repr

/-- The promise type of the host coroutine as `__awaitable_base::__rec` uses it:
whether it declares `unhandled_done()`, and the number of the coroutine handle
that call returns. -/
structure HostPromise where
  unhandled_done : Option Nat
  deriving DecidableEq, Repr

/-- What happens to the host coroutine and its promise. -/
inductive HostEvent where
  | await_returns (vs : List Val)
  | await_rethrows (e : Val)
  | terminate
  | unhandled_done
  | resumed (h : Nat)
  deriving DecidableEq, Repr

/-- The state of one `co_await` of a sender: the member `result_` of the
awaitable and what has happened to the host so far. -/
structure AwaitState where
  result_ : Expected
  host : List HostEvent
  deriving DecidableEq, Repr

/-- The state when `await_suspend` is entered: `result_` holds `monostate`. -/
def AwaitState.init : AwaitState := { result_ := .monostate, host := [] }

/-- The member `__awaitable_base::await_resume`: index 1 returns the value
(nothing for `void`), index 2 rethrows the stored exception, index 0 falls
through to `terminate()`. -/
def await_resume (result_ : Expected) : HostEvent :=
  match result_ with
  | .monostate => .terminate
  | .value vs => .await_returns vs
  | .error p => .await_rethrows (rethrow_exception p)

/-- The call `continuation_.resume()` in `__rec_base`: the host coroutine is
resumed at the `co_await` and evaluates `await_resume()`. -/
def continuation_resume (st : AwaitState) : AwaitState :=
  { st with host := st.host ++ [await_resume st.result_] }

/-- The friend `tag_invoke(set_value_t, __rec_base&&, Us&&...)`: requires
`constructible_from<Value, Us...>`, or `Value` is `void` and there is no
argument; `result_->emplace<1>(us...)`, then `continuation_.resume()`. `none`:
the call is ill-formed. -/
def rec_set_value (Value : Ty) (vs : List Val) (st : AwaitState) : Option AwaitState :=
  if tuple_constructible_from [Value] (vs.map Val.typeOf) || (Value = Ty.void && vs = []) then
    some (continuation_resume { st with result_ := .value vs })
  else none

/-- The friend `tag_invoke(set_error_t, __rec_base&&, exception_ptr)`:
`result_->emplace<2>(eptr)`, then `continuation_.resume()`. -/
def rec_set_error (p : Val) (st : AwaitState) : Option AwaitState :=
  if p.typeOf = Ty.exception_ptr then
    some (continuation_resume { st with result_ := .error p })
  else none

/-- The friend `tag_invoke(set_done_t, __rec&&)`:
`continuation.promise().unhandled_done().resume()`. The host is not resumed.
`none`: the promise declares no `unhandled_done()`. -/
def rec_set_done (P : HostPromise) (st : AwaitState) : Option AwaitState :=
  match P.unhandled_done with
  | some h => some { st with host := st.host ++ [.unhandled_done, .resumed h] }
  | none => none

/-- The completion of the awaited sender as `__rec` receives it. -/
def rec_complete (Value : Ty) (P : HostPromise) : Signal → AwaitState → Option AwaitState
  | .value vs, st => rec_set_value Value vs st
  | .error p, st => rec_set_error p st
  | .done, st => rec_set_done P st

/-- The call `as_awaitable(s, promise)`: requires `__single_typed_sender<S>`, and
the awaitable it returns has `Value = __single_sender_value_t<S>`. -/
def as_awaitable (s : Sender) : Option Ty :=
  if single_typed_sender s then single_sender_value_t s else none

/-! ## `with_awaitable_senders_base` (source lines 592-625) -/

/-- A promise type `OtherPromise`, as `set_continuation` sees it: its name and
whether `other.unhandled_done()` is a valid expression. -/
structure PromiseType where
  name : Nat
  has_unhandled_done : Bool
  deriving DecidableEq, Repr

/-- A `coroutine_handle<OtherPromise>`: the address of the frame and the promise
type. -/
structure Handle where
  address : Nat
  promise : PromiseType
  deriving DecidableEq, Repr

/-- The function the member `done_callback_` points to: the default lambda, which
calls `std::terminate()`, or the lambda of `set_continuation` instantiated for a
promise type `P`, which calls
`coroutine_handle<P>::from_address(address).promise().unhandled_done()`. -/
inductive DoneCallback where
  | terminate
  | unhandled_done_of (P : PromiseType)
  deriving DecidableEq, Repr

/-- The data members of `with_awaitable_senders_base`: `continuation_` (the
address held by the type-erased handle, `none` for the null handle) and
`done_callback_`. -/
structure AwaitableSendersBase where
  continuation_ : Option Nat
  done_callback_ : DoneCallback
  deriving DecidableEq, Repr

/-- The default member initialisers: a null handle and the terminating lambda. -/
def AwaitableSendersBase.init : AwaitableSendersBase :=
  { continuation_ := none, done_callback_ := .terminate }

/-- The member `set_continuation(h)`: `continuation_ = h`; the callback is
assigned only inside the `if constexpr` that tests whether `OtherPromise` has
`unhandled_done()`, and is left as it was otherwise. -/
def set_continuation (st : AwaitableSendersBase) (h : Handle) : AwaitableSendersBase :=
  { continuation_ := some h.address,
    done_callback_ :=
      if h.promise.has_unhandled_done then .unhandled_done_of h.promise
      else st.done_callback_ }

/-- What a call of `unhandled_done()` on the base does: `terminates`, or the
`unhandled_done()` of promise type `P` is run on the frame at `address` and its
result returned. -/
inductive DoneResult where
  | terminates
  | runs (P : PromiseType) (address : Option Nat)
  deriving DecidableEq, Repr

/-- The member `unhandled_done()`: `(*done_callback_)(continuation_.address())`. -/
def unhandled_done (st : AwaitableSendersBase) : DoneResult :=
  match st.done_callback_ with
  | .terminate => .terminates
  | .unhandled_done_of P => .runs P st.continuation_

/-- Following the specification's words: `unhandled_done()` after a sequence
of `set_continuation` calls (the most recent one last) behaves according to the
most recently set continuation: the result of that promise's `unhandled_done()`
when it provides one; termination when it does not, or when no continuation was
ever set. -/
def unhandled_done_spec (hs : List Handle) : DoneResult :=
  match hs.getLast? with
  | some h => if h.promise.has_unhandled_done then .runs h.promise (some h.address)
              else .terminates
  | none => .terminates

/-! ## Instantiating `value_types` (source lines 694-724, 1343-1352) -/

/-- The type `sender_traits<S>::value_types<Tuple, Variant>` for metadata in the
regular form: `Variant<Tuple<Ts...>...>`. Types are taken from any carrier `α`;
`leaf` embeds the element types, and `Tuple` and `Variant` are the two class
templates, each mapping its list of arguments to a type. -/
def Traits.value_types_of {α : Type} (t : Traits) (leaf : Ty → α)
    (Tuple Variant : List α → α) : α :=
  Variant (t.value_types.map (fun ts => Tuple (ts.map leaf)))

/-- The member `value_types<Tuple, Variant>` of `sender_traits<S>`, when it
exists: metadata in the regular form apply their arguments in the order given;
swapped metadata pass them on in the opposite order. -/
def TraitsBase.value_types_of {α : Type} (leaf : Ty → α) (Tuple Variant : List α → α) :
    TraitsBase → Option α
  | .typed t => some (t.value_types_of leaf Tuple Variant)
  | .typed_swapped t => some (t.value_types_of leaf Variant Tuple)
  | _ => none

/-- The member `error_types<Variant>` of `sender_traits<S>`, when it exists. -/
def TraitsBase.error_types_of {α : Type} (leaf : Ty → α) (Variant : List α → α) :
    TraitsBase → Option α
  | .typed t => some (Variant (t.error_types.map leaf))
  | .typed_swapped t => some (Variant (t.error_types.map leaf))
  | _ => none

/-- The member `sends_done` of `sender_traits<S>`, when it exists. -/
def TraitsBase.sends_done_of : TraitsBase → Option Bool
  | .typed t => some t.sends_done
  | .typed_swapped t => some t.sends_done
  | _ => none

/-- Type expressions built from element types with the class templates
`std::tuple` and `std::variant`. -/
inductive TyExpr where
  | leaf (t : Ty)
  | tuple (args : List TyExpr)
  | variant (args : List TyExpr)

/-! ## Further concrete inputs -/

/-- A caller's receiver that accepts every error and `set_done` but declares no
`set_value` at all, and answers no query. -/
def error_only_recv : UserRecv where
  id := 4
  accepts_value := fun _ => false
  accepts_error := fun _ => true
  accepts_done := true
  value_throws := fun _ => none

/-- An awaitable with result `int` and no `tag_invoke` for `connect_t`, whose
await throws `7`. -/
def throwing_awaitable : UserSender where
  info := { declared := none, derives_sender_base := false, awaitable := some Ty.int }
  connects := fun _ => false
  completes := .error (.eptr (.int 7))

/-- An awaitable with result `void` and no `tag_invoke` for `connect_t`, whose
await produces nothing. -/
def void_awaitable : UserSender where
  info := { declared := none, derives_sender_base := false, awaitable := some Ty.void }
  connects := fun _ => false
  completes := .value []

/-- A promise type that declares `unhandled_done()`. -/
def task_promise : PromiseType := { name := 1, has_unhandled_done := true }

/-- A promise type that declares no `unhandled_done()`. -/
def plain_promise : PromiseType := { name := 2, has_unhandled_done := false }

/-- A class that derives from the operation-state adaptor and declares no member
`start`. -/
def plain_op_derived : OpDerived where
  has_start := false
  start := fun w => (w, .normal)
  start_noexcept := true

/-- A caller's receiver that accepts every completion, never throws, and
answers the query numbered `0` (`get_scheduler`) with `obj 7 0` and the query
numbered `1` (`get_allocator`) with `obj 8 0`. -/
def env_recv : UserRecv where
  id := 5
  accepts_value := fun _ => true
  accepts_error := fun _ => true
  accepts_done := true
  value_throws := fun _ => none
  queries := fun q => if q = 0 then some (.obj 7 0) else if q = 1 then some (.obj 8 0) else none

/-- An overloaded callable: `(int, double) → void` and `(short, long) → long`. -/
def overloaded_fn : Fn where
  id := 7
  result := fun ts =>
    if ts = [Ty.int, Ty.double] then some Ty.void
    else if ts = [Ty.short, Ty.long] then some Ty.long
    else none
  call := fun _ => .nothing

/-! ## Lemmas on the resolution layer -/

theorem constructible_from_self (T : Ty) : constructible_from T T = true := by
  simp [constructible_from]

theorem tuple_constructible_from_self (ts : List Ty) :
    tuple_constructible_from ts ts = true := by
  induction ts with
  | nil => rfl
  | cons t ts ih => simp [tuple_constructible_from, constructible_from_self, ih]

theorem closure_call_not_sender (c : Closure) (s : Sender) (h : sender s = false) :
    c.call s = none := by
  cases c <;> simp [Closure.call, h]

theorem then_t_not_sender (s : Sender) (f : Fn) (h : sender s = false) :
    then_t s f = none := by
  cases s <;> simp [then_t, then_default_viable, h]

/-! ## Properties of the specification -/

/-- C1: for every list of values `x1..xn` (also the empty one) and either value
category (and either answer to the access question `acc`),
`sync_wait(just(x1, ..., xn))` is accepted, returns the engaged optional
holding exactly the tuple `(x1, ..., xn)`, does not throw, and invokes nothing
else. -/
theorem C1_sync_wait_just (acc rv : Bool) (vs : List Val) :
    sync_wait acc rv (.just vs) = { outcome := .returns (some vs), trace := [] } := by
  simp [sync_wait, sync_wait_default_viable, typed_sender, sender, sender_traits,
    TraitsBase.unspecialized, TraitsBase.metadata, sync_wait_result_t, sync_wait_default,
    connect, receiver, receiver_of, tuple_constructible_from_self, start,
    Receiver.complete, Receiver.set_value, World.init]

/-- C8: for every sender `s` and adaptor closures `a`, `b` (ill-formed
expressions being `none` on both sides): `s | a` is `a(s)`; the composed closure
`a | b` applied to `s` is `b(a(s))`; and `s | (a | b)` is `(s | a) | b`. -/
theorem C8_pipe_laws (s : Sender) (a b : Closure) :
    pipe s a = a.call s
    ∧ (pipe_closure a b).call s = (a.call s).bind b.call
    ∧ pipe s (pipe_closure a b) = pipe? (pipe s a) b := by
  have hpipe : ∀ (t : Sender) (c : Closure), pipe t c = c.call t := by
    intro t c
    cases ht : sender t
    · simp [pipe, ht, closure_call_not_sender c t ht]
    · simp [pipe, ht]
  have hcomp : (pipe_closure a b).call s = (a.call s).bind b.call := by
    cases hs : sender s
    · simp [pipe_closure, Closure.call, hs, closure_call_not_sender a s hs]
    · cases ha : a.call s <;> simp [pipe_closure, Closure.call, hs, ha]
  refine ⟨hpipe s a, hcomp, ?_⟩
  rw [hpipe s (pipe_closure a b), hcomp, hpipe s a]
  cases ha : a.call s with
  | none => simp [pipe?]
  | some s1 => simp [pipe?, hpipe s1 b]

/-- C9: for every sender `s` (a type that models `sender`): the closure `then(f)`
applied to `s`, and `s | then(f)`, are the expression `then(s, f)`; and a
`__binder_back` holding the adaptor `fn` and the bound arguments `as`, applied to
`s`, is `fn(s, as...)`, the bound arguments unchanged and in their order after the
sender. -/
theorem C9_binder_back (s : Sender) (hs : sender s = true) (f : Fn) (fn : Adaptor)
    (as : List Arg) :
    (then_closure f).call s = then_t s f
    ∧ pipe s (then_closure f) = then_t s f
    ∧ (Closure.binder_back fn as).call s = fn s as := by
  simp [then_closure, Closure.call, pipe, hs, then_adaptor]

/-- Witness for C9 at `s = just(3)`, `f = x → x + 1`, and the binder holding
`then` with the single bound argument `x → x * x`. -/
theorem C9_binder_back_witness :
    sender (.just [.int 3]) = true
    ∧ ((then_closure succ_fn).call (.just [.int 3]) = then_t (.just [.int 3]) succ_fn
      ∧ pipe (.just [.int 3]) (then_closure succ_fn) = then_t (.just [.int 3]) succ_fn
      ∧ (Closure.binder_back then_adaptor [.fn square_fn]).call (.just [.int 3])
          = then_adaptor (.just [.int 3]) [.fn square_fn]) :=
  ⟨rfl, C9_binder_back (.just [.int 3]) rfl succ_fn then_adaptor [.fn square_fn]⟩

/-- C10: `sender_traits` resolution follows the stated priority for every type:
(1) a type that declares `value_types`, `error_types` and `sends_done` gets exactly
that metadata, whether or not it derives from `sender_base` or is awaitable;
(2) otherwise a type deriving from `sender_base` gets the base `sender_base`, which
carries no metadata (it is a sender, not a typed one), whether or not it is
awaitable; (3) otherwise an awaitable with result `T` gets one value shape `(T)`
(the empty shape for `void`), the error shape `exception_ptr` and
`sends_done = false`; (4) otherwise the type is not a sender. -/
theorem C10_sender_traits_priority (t : Traits) (d : Bool) (a : Option Ty) (T : Ty) :
    sender_traits_base_fn { declared := some t, derives_sender_base := d, awaitable := a }
        = .typed t
    ∧ sender_traits_base_fn { declared := none, derives_sender_base := true, awaitable := a }
        = .sender_base
    ∧ TraitsBase.sender_base.metadata = none
    ∧ TraitsBase.sender_base.unspecialized = false
    ∧ sender_traits_base_fn
          { declared := none, derives_sender_base := false, awaitable := some T }
        = .typed { value_types := [if T = Ty.void then [] else [T]],
                   error_types := [Ty.exception_ptr], sends_done := false }
    ∧ sender_traits_base_fn
          { declared := none, derives_sender_base := false, awaitable := none }
        = .no_sender_traits
    ∧ TraitsBase.no_sender_traits.unspecialized = true := by
  refine ⟨rfl, rfl, rfl, rfl, ?_, rfl, rfl⟩
  by_cases h : T = Ty.void <;> simp [sender_traits_base_fn, h, void_sender, sender_of_traits]

/-! ### Error and cancellation pass through `then` -/

theorem set_error_flow (r : Receiver) (e : Val) (w : World) :
    (r.set_error e w).2 = Flow.normal := by
  induction r with
  | user u => rfl
  | sync_wait t => rfl
  | then_ base f ih => simpa [Receiver.set_error] using ih
  | write_ q v base ih => simpa [Receiver.set_error] using ih
  | submit_wrap r ih => simpa [Receiver.set_error] using ih

theorem set_done_flow (r : Receiver) (w : World) : (r.set_done w).2 = Flow.normal := by
  induction r with
  | user u => rfl
  | sync_wait t => rfl
  | then_ base f ih => simpa [Receiver.set_done] using ih
  | write_ q v base ih => simpa [Receiver.set_done] using ih
  | submit_wrap r ih => simpa [Receiver.set_done] using ih

theorem noexcept_of_normal (x : World × Flow) (h : x.2 = Flow.normal) : noexcept_ x = x := by
  simp [noexcept_, h]

theorem catch_of_normal (r : Receiver) (x : World × Flow) :
    x.2 = Flow.normal →
    (match x with
      | (w1, .throwing e) => r.set_error (.eptr e) w1
      | res => res) = x := by
  intro h
  obtain ⟨w1, fl⟩ := x
  simp only at h
  subst h
  rfl

theorem start_error (acc : Bool) (sig : Signal) (r : Receiver) (w : World) (e : Val)
    (op : OpState)
    (hop : op = .just_op sig r ∨ op = .user_op sig r ∨ op = .awaitable_op sig r)
    (hsig : sig = .error e) :
    start acc op w = r.set_error e w := by
  have hflow := set_error_flow r e w
  rcases hop with h | h | h
  · subst h; subst hsig
    simp only [start, Receiver.complete]
    exact catch_of_normal r _ hflow
  · subst h; subst hsig
    simp only [start, Receiver.complete]
    exact noexcept_of_normal _ hflow
  · subst h; subst hsig
    simp only [start, Receiver.complete]
    exact catch_of_normal r _ hflow

theorem start_done (acc : Bool) (sig : Signal) (r : Receiver) (w : World)
    (op : OpState)
    (hop : op = .just_op sig r ∨ op = .user_op sig r ∨ op = .awaitable_op sig r)
    (hsig : sig = .done) :
    start acc op w = r.set_done w := by
  have hflow := set_done_flow r w
  rcases hop with h | h | h
  · subst h; subst hsig
    simp only [start, Receiver.complete]
    exact catch_of_normal r _ hflow
  · subst h; subst hsig
    simp only [start, Receiver.complete]
    exact noexcept_of_normal _ hflow
  · subst h; subst hsig
    simp only [start, Receiver.complete]
    exact catch_of_normal r _ hflow

/-- The operation state `connect` builds for a caller's sender is one of the
two that deliver its signal to the receiver. -/
theorem connect_user_op (acc rv : Bool) (u : UserSender) (r : Receiver) (op : OpState)
    (h : connect acc rv (.user u) r = some op) :
    op = .user_op u.completes r ∨ op = .awaitable_op u.completes r := by
  simp only [connect] at h
  split at h
  · simp only [Option.some.injEq] at h
    exact Or.inl h.symm
  · cases ha : u.info.awaitable with
    | none => simp [ha] at h
    | some T =>
        simp only [ha] at h
        split at h
        · by_cases hro : receiver_of acc r (if T = Ty.void then [] else [T]) = true
          · rw [if_pos hro] at h
            simp only [Option.some.injEq] at h
            exact Or.inr h.symm
          · rw [if_neg hro] at h
            simp at h
        · simp at h

theorem connect_write_op (acc rv : Bool) (s : Sender) (q : Nat) (v : Val) (r : Receiver)
    (op : OpState) (h : connect acc rv (.write s q v) r = some op) :
    ∃ inner, connect acc rv s (.write_ q v r) = some inner ∧ op = .write_op v inner := by
  simp only [connect] at h
  split at h
  · split at h
    · rename_i inner hinner
      simp only [Option.some.injEq] at h
      exact ⟨inner, hinner, h.symm⟩
    · simp at h
  · simp at h

theorem connect_start_error (acc : Bool) (s : Sender) (e : Val)
    (hsrc : s.source_signal = .error e) :
    ∀ (rv : Bool) (r : Receiver) (op : OpState) (w : World),
      connect acc rv s r = some op → start acc op w = r.set_error e w := by
  induction s with
  | just vs => simp [Sender.source_signal] at hsrc
  | just_error e1 =>
      intro rv r op w h
      simp only [Sender.source_signal, Signal.error.injEq] at hsrc
      subst hsrc
      simp only [connect] at h
      split at h
      · simp only [Option.some.injEq] at h
        exact start_error acc _ r w _ op (Or.inl h.symm) rfl
      · simp at h
  | just_done => simp [Sender.source_signal] at hsrc
  | then_ s1 f ih =>
      intro rv r op w h
      have ih1 := ih hsrc
      simp only [connect] at h
      split at h
      · split at h
        · exact ih1 true (.then_ r f) op w h
        · split at h
          · exact ih1 rv r op w h
          · simp at h
      · simp at h
  | user u =>
      intro rv r op w h
      simp only [Sender.source_signal] at hsrc
      rcases connect_user_op acc rv u r op h with h1 | h1
      · exact start_error acc _ r w _ op (Or.inr (Or.inl h1)) hsrc
      · exact start_error acc _ r w _ op (Or.inr (Or.inr h1)) hsrc
  | write s1 q v ih =>
      intro rv r op w h
      obtain ⟨inner, hinner, hop⟩ := connect_write_op acc rv s1 q v r op h
      subst hop
      exact ih hsrc rv (.write_ q v r) inner w hinner

theorem connect_start_done (acc : Bool) (s : Sender) (hsrc : s.source_signal = .done) :
    ∀ (rv : Bool) (r : Receiver) (op : OpState) (w : World),
      connect acc rv s r = some op → start acc op w = r.set_done w := by
  induction s with
  | just vs => simp [Sender.source_signal] at hsrc
  | just_error e1 => simp [Sender.source_signal] at hsrc
  | just_done =>
      intro rv r op w h
      simp only [connect] at h
      split at h
      · simp only [Option.some.injEq] at h
        exact start_done acc _ r w op (Or.inl h.symm) rfl
      · simp at h
  | then_ s1 f ih =>
      intro rv r op w h
      have ih1 := ih hsrc
      simp only [connect] at h
      split at h
      · split at h
        · exact ih1 true (.then_ r f) op w h
        · split at h
          · exact ih1 rv r op w h
          · simp at h
      · simp at h
  | user u =>
      intro rv r op w h
      simp only [Sender.source_signal] at hsrc
      rcases connect_user_op acc rv u r op h with h1 | h1
      · exact start_done acc _ r w op (Or.inr (Or.inl h1)) hsrc
      · exact start_done acc _ r w op (Or.inr (Or.inr h1)) hsrc
  | write s1 q v ih =>
      intro rv r op w h
      obtain ⟨inner, hinner, hop⟩ := connect_write_op acc rv s1 q v r op h
      subst hop
      exact ih hsrc rv (.write_ q v r) inner w hinner

/-- C5: for every sender `s`, callable `f` and downstream receiver `r` such that
`connect(then(s, f), r)` is well-formed, with operation state `op` (for either
value category and either answer to the access question): if `s` completes with
`set_error(e)`, then `start(op)` does exactly what `set_error(r, e)` does, with the
same `e`; if `s` completes with `set_done`, then `start(op)` does exactly what
`set_done(r)` does. On a caller's receiver that is one recorded event: `f` is
never invoked and `set_value` is never entered. -/
theorem C5_then_forwards_error_and_done (acc rv : Bool) (s : Sender) (f : Fn) (r : Receiver)
    (op : OpState) (w : World) (h : connect acc rv (.then_ s f) r = some op) :
    (∀ e, s.source_signal = .error e →
        start acc op w = r.set_error e w
        ∧ ∀ u, r = .user u → start acc op w = (w.emit (.set_error u.id e), Flow.normal))
    ∧ (s.source_signal = .done →
        start acc op w = r.set_done w
        ∧ ∀ u, r = .user u → start acc op w = (w.emit (.set_done u.id), Flow.normal)) := by
  constructor
  · intro e he
    have h1 : start acc op w = r.set_error e w :=
      connect_start_error acc (.then_ s f) e he rv r op w h
    refine ⟨h1, ?_⟩
    intro u hu
    rw [h1, hu]
    rfl
  · intro hd
    have h1 : start acc op w = r.set_done w :=
      connect_start_done acc (.then_ s f) hd rv r op w h
    refine ⟨h1, ?_⟩
    intro u hu
    rw [h1, hu]
    rfl

/-- Witness for C5: `then(just_error(p), x → 0)` connected as an rvalue to a
caller's receiver that accepts everything (the member `connect` being used);
`start` records exactly one `set_error` with the same `p`. -/
theorem C5_then_forwards_error_and_done_witness :
    connect true true (.then_ (.just_error (.eptr (.int 7))) zero_fn) (.user any_recv)
        = some (.just_op (.error (.eptr (.int 7))) (.then_ (.user any_recv) zero_fn))
    ∧ start true (.just_op (.error (.eptr (.int 7))) (.then_ (.user any_recv) zero_fn))
          World.init
        = (World.init.emit (.set_error 0 (.eptr (.int 7))), Flow.normal) :=
  ⟨rfl,
   ((C5_then_forwards_error_and_done true true (.just_error (.eptr (.int 7))) zero_fn
      (.user any_recv) (.just_op (.error (.eptr (.int 7))) (.then_ (.user any_recv) zero_fn))
      World.init rfl).1 (.eptr (.int 7)) rfl).2 any_recv rfl⟩

/-! ### `sync_wait` on a `then` sender: two viable call operators -/

theorem sync_wait_then_just_ill_formed (acc rv : Bool) (x : Val) (f : Fn) :
    sync_wait acc rv (.then_ (.just [x]) f) = { outcome := .ill_formed, trace := [] } := by
  cases hres : f.result [x.typeOf] with
  | none =>
      simp [sync_wait, sync_wait_invocable, sync_wait_default_viable, typed_sender, sender,
        sender_traits, then_shapes, then_shape, hres, TraitsBase.unspecialized]
  | some T =>
      by_cases hT : T = Ty.void <;>
      simp [sync_wait, sync_wait_invocable, sync_wait_default_viable, typed_sender, sender,
        sender_traits, then_shapes, then_shape, hres, hT, TraitsBase.unspecialized,
        TraitsBase.metadata, sync_wait_result_t]

theorem sync_wait_default_then_just_value (x v : Val) (f : Fn) (T : Ty)
    (hres : f.result [x.typeOf] = some T) (hT : T ≠ Ty.void) (hcall : f.call [x] = .value v) :
    sync_wait_default true true (.then_ (.just [x]) f)
      = { outcome := .returns (some [v]), trace := [.invoked f.id [x]] } := by
  simp [sync_wait_default, sync_wait_result_t, sender_traits, then_shapes, then_shape, hres, hT,
    TraitsBase.metadata, connect, sender, TraitsBase.unspecialized, receiver, receiver_of,
    tuple_constructible_from, constructible_from_self, start, Receiver.complete,
    Receiver.set_value, has_set_value, hcall, noexcept_, World.init, World.emit]

theorem sync_wait_default_then_just_void (x : Val) (f : Fn)
    (hres : f.result [x.typeOf] = some Ty.void) (hcall : f.call [x] = .nothing) :
    sync_wait_default true true (.then_ (.just [x]) f)
      = { outcome := .returns (some []), trace := [.invoked f.id [x]] } := by
  simp [sync_wait_default, sync_wait_result_t, sender_traits, then_shapes, then_shape, hres,
    TraitsBase.metadata, connect, sender, TraitsBase.unspecialized, receiver, receiver_of,
    tuple_constructible_from, start, Receiver.complete,
    Receiver.set_value, has_set_value, hcall, noexcept_, World.init, World.emit]

theorem sync_wait_default_then_just_unseen (rv : Bool) (x : Val) (f : Fn) (T : Ty)
    (hres : f.result [x.typeOf] = some T) (hT : T ≠ Ty.void)
    (hconv : constructible_from T x.typeOf = true) :
    sync_wait_default false rv (.then_ (.just [x]) f)
      = { outcome := .returns (some [x]), trace := [] } := by
  simp [sync_wait_default, sync_wait_result_t, sender_traits, then_shapes, then_shape, hres, hT,
    TraitsBase.metadata, connect, sender, TraitsBase.unspecialized, receiver, receiver_of,
    tuple_constructible_from, hconv, start, Receiver.complete,
    Receiver.set_value, World.init]

/-- C2 (evaluation at the failing input `x = 3`, `f = x → x + 1`): the expression
`then(just(3), f)` is accepted, but `sync_wait` of it is ill-formed and nothing
runs, whatever the answer to the access question: both call operators of
`sync_wait_t` are viable (the typed-sender one, and the `tag_invoke` one through
the forwarding friend of the sender adaptor). Taken alone, the first would return
`Some((4,))` after invoking `f` once with `3` when the private members are seen,
and `Some((3,))` without invoking `f` when they are not; the second would run
`sync_wait(just(3))` and return `Some((3,))` without invoking `f`. -/
theorem C2_sync_wait_then_just_ambiguous :
    then_t (.just [.int 3]) succ_fn = some (.then_ (.just [.int 3]) succ_fn)
    ∧ sync_wait? true (then_t (.just [.int 3]) succ_fn)
        = { outcome := .ill_formed, trace := [] }
    ∧ sync_wait? false (then_t (.just [.int 3]) succ_fn)
        = { outcome := .ill_formed, trace := [] }
    ∧ sync_wait_default_viable (.then_ (.just [.int 3]) succ_fn) = true
    ∧ sync_wait_tag_invocable (.then_ (.just [.int 3]) succ_fn) = true
    ∧ sync_wait_default true true (.then_ (.just [.int 3]) succ_fn)
        = { outcome := .returns (some [.int 4]), trace := [.invoked 3 [.int 3]] }
    ∧ sync_wait_default false true (.then_ (.just [.int 3]) succ_fn)
        = { outcome := .returns (some [.int 3]), trace := [] }
    ∧ sync_wait true false (.just [.int 3])
        = { outcome := .returns (some [.int 3]), trace := [] } :=
  ⟨rfl, rfl, rfl, rfl, rfl, rfl, rfl, rfl⟩

/-- Scenario S1 of the specification, the private members being seen:
`sync_wait(just(3, 4) | then(+) | then(square))` returns `Some((49,))`, the two
callables running in order. -/
theorem scenario_S1 :
    sync_wait? true (pipe? (pipe (.just [.int 3, .int 4]) (then_closure add_fn))
        (then_closure square_fn))
      = { outcome := .returns (some [.int 49]),
          trace := [.invoked 1 [.int 3, .int 4], .invoked 2 [.int 7]] } := rfl

/-- C3 (evaluation at the failing input `just(3) | then(x → x + 1) | then(x → x * x)`,
where the second callable also accepts the value of `just(3)`): the first pipe
is accepted, the second is ill-formed, so `sync_wait` of the chain is ill-formed
and nothing runs, whatever the answer to the access question. Both call operators
of `then_t` are viable on the `then` sender: the one building the new `then`
sender, and the `tag_invoke` one, whose forwarding friend returns
`then(just(3), x → x * x)`, the first callable dropped. -/
theorem C3_then_chain_ambiguous :
    pipe (.just [.int 3]) (then_closure succ_fn) = some (.then_ (.just [.int 3]) succ_fn)
    ∧ pipe? (pipe (.just [.int 3]) (then_closure succ_fn)) (then_closure square_fn) = none
    ∧ sync_wait? true (pipe? (pipe (.just [.int 3]) (then_closure succ_fn))
          (then_closure square_fn)) = { outcome := .ill_formed, trace := [] }
    ∧ sync_wait? false (pipe? (pipe (.just [.int 3]) (then_closure succ_fn))
          (then_closure square_fn)) = { outcome := .ill_formed, trace := [] }
    ∧ then_default_viable (.then_ (.just [.int 3]) succ_fn) square_fn = true
    ∧ then_tag_invocable (.then_ (.just [.int 3]) succ_fn) square_fn = true
    ∧ then_t (.just [.int 3]) square_fn = some (.then_ (.just [.int 3]) square_fn) :=
  ⟨rfl, rfl, rfl, rfl, rfl, rfl, rfl⟩

theorem then_t_both_viable (s : Sender) (f g : Fn) (hs : sender (.then_ s f) = true)
    (htag : (then_t s g).isSome = true)
    (hdef : then_default_viable (.then_ s f) g = true) :
    then_t (.then_ s f) g = none := by
  simp [then_t, hs, htag, hdef]

/-! ### A throwing callable inside `then` -/

theorem then_set_value_throws (acc : Bool) (base : Receiver) (f : Fn) (vs : List Val)
    (w : World) (e : Val)
    (hacc : has_set_value acc base f (vs.map Val.typeOf) = true)
    (hthrow : f.call vs = .throws e) :
    (Receiver.then_ base f).set_value acc vs w
      = (w.emit (.invoked f.id vs), Flow.terminated) := by
  simp [Receiver.set_value, hacc, hthrow]

/-- C4 (evaluation at the failing input `then(just(), () → throw 999)` connected
to a caller's receiver `r` that accepts everything). When the private members
are seen: `connect` yields the operation state of `just()` holding the `then`
receiver; `start` invokes the callable once and ends in `std::terminate`; the
trace holds no `set_error` (and no other completion) of `r`; the body of the
typed-sender call operator of `sync_wait` terminates in the same way. When they
are not seen: `connect` binds `just()` to `r` directly, `start` enters
`set_value(r)` and the callable is never invoked. In neither case is
`set_error` entered. -/
theorem C4_then_throw_terminates :
    connect true true (.then_ (.just []) boom_fn) (.user any_recv)
        = some (.just_op (.value []) (.then_ (.user any_recv) boom_fn))
    ∧ start true (.just_op (.value []) (.then_ (.user any_recv) boom_fn)) World.init
        = ({ trace := [.invoked 4 []], data := .monostate }, Flow.terminated)
    ∧ sync_wait_default true true (.then_ (.just []) boom_fn)
        = { outcome := .terminates, trace := [.invoked 4 []] }
    ∧ connect false true (.then_ (.just []) boom_fn) (.user any_recv)
        = some (.just_op (.value []) (.user any_recv))
    ∧ start false (.just_op (.value []) (.user any_recv)) World.init
        = ({ trace := [.set_value 0 []], data := .monostate }, Flow.normal) :=
  ⟨rfl, rfl, rfl, rfl, rfl⟩

/-! ### `sync_wait` and the error and cancellation channels -/

theorem sync_wait_user (acc rv : Bool) (u : UserSender) (t : Traits) (shape : List Ty)
    (hdecl : u.info.declared = some t) (hshape : t.value_types = [shape])
    (hconn : u.connects (.sync_wait shape) = true)
    (hop : u.op_state (.sync_wait shape) = true) :
    sync_wait acc rv (.user u)
      = match start acc (.user_op u.completes (.sync_wait shape)) World.init with
        | (w, .terminated) => { outcome := .terminates, trace := w.trace }
        | (w, .throwing e) => { outcome := .throws e, trace := w.trace }
        | (w, .normal) =>
            match w.data with
            | .monostate => { outcome := .blocks, trace := w.trace }
            | .error p => { outcome := .throws (rethrow_exception p), trace := w.trace }
            | .done => { outcome := .returns none, trace := w.trace }
            | .value v => { outcome := .returns (some v), trace := w.trace } := by
  simp [sync_wait, sync_wait_default_viable, typed_sender, sender, sender_traits,
    sender_traits_base_fn, hdecl, TraitsBase.unspecialized, TraitsBase.metadata,
    sync_wait_result_t, hshape, sync_wait_default, connect, receiver, hconn, hop]

theorem sync_wait_just_done (acc rv : Bool) :
    sync_wait acc rv .just_done = { outcome := .ill_formed, trace := [] } := by
  simp [sync_wait, sync_wait_default_viable, typed_sender, sender, sender_traits,
    TraitsBase.unspecialized, TraitsBase.metadata, sync_wait_result_t]

theorem sync_wait_just_error (acc rv : Bool) (e : Val) :
    sync_wait acc rv (.just_error e) = { outcome := .ill_formed, trace := [] } := by
  simp [sync_wait, sync_wait_default_viable, typed_sender, sender, sender_traits,
    TraitsBase.unspecialized, TraitsBase.metadata, sync_wait_result_t]

theorem sync_wait_then_just_done (acc rv : Bool) (f : Fn) :
    sync_wait acc rv (.then_ .just_done f) = { outcome := .ill_formed, trace := [] } := by
  simp [sync_wait, sync_wait_invocable, sync_wait_default_viable, typed_sender, sender,
    sender_traits, then_shapes, TraitsBase.unspecialized, TraitsBase.metadata,
    sync_wait_result_t]

/-- C6 (counterexample): `sync_wait(just_done())` is rejected at resolution time,
whatever the answer to the access question; it does not return the empty
optional. -/
theorem C6_counterexample :
    (sync_wait true true .just_done).outcome = .ill_formed
    ∧ (sync_wait true true .just_done).outcome ≠ .returns none
    ∧ (sync_wait false true .just_done).outcome = .ill_formed
    ∧ (sync_wait false true .just_done).outcome ≠ .returns none := by
  refine ⟨rfl, ?_, rfl, ?_⟩ <;> decide

/-- C6 (amended): `sync_wait` of a typed sender with exactly one value shape that
is connectable to the waiter's receiver and completes with `set_done` returns the
empty optional (connectable: its `tag_invoke` for `connect_t` accepts that
receiver and returns an operation state). `sync_wait(just_done())` is rejected at
resolution time, because
`just_done()` advertises no value shape; for every callable `f`, the expression
`just_done() | then(f)` is accepted, `sync_wait` of it is rejected for the same
reason, and `f` is never invoked. -/
theorem C6_sync_wait_done (acc rv : Bool) (u : UserSender) (t : Traits) (shape : List Ty)
    (f : Fn) (hdecl : u.info.declared = some t) (hshape : t.value_types = [shape])
    (hconn : u.connects (.sync_wait shape) = true)
    (hop : u.op_state (.sync_wait shape) = true) (hdone : u.completes = .done) :
    sync_wait acc rv (.user u) = { outcome := .returns none, trace := [] }
    ∧ sync_wait acc rv .just_done = { outcome := .ill_formed, trace := [] }
    ∧ pipe .just_done (then_closure f) = some (.then_ .just_done f)
    ∧ sync_wait acc rv (.then_ .just_done f) = { outcome := .ill_formed, trace := [] } := by
  refine ⟨?_, sync_wait_just_done acc rv, ?_, sync_wait_then_just_done acc rv f⟩
  · rw [sync_wait_user acc rv u t shape hdecl hshape hconn hop, hdone]
    rfl
  · simp [pipe, then_closure, Closure.call, then_adaptor, then_t, then_default_viable,
      sender, sender_traits, then_shapes, TraitsBase.unspecialized]

/-- Witness for C6 (amended) at a sender with the metadata of `my_sender0` of the
tests, completing with `set_done`, and the callable `x → 0`. -/
theorem C6_sync_wait_done_witness :
    sync_wait true true (.user (my_sender0 .done)) = { outcome := .returns none, trace := [] }
    ∧ sync_wait true true .just_done = { outcome := .ill_formed, trace := [] }
    ∧ pipe .just_done (then_closure zero_fn) = some (.then_ .just_done zero_fn)
    ∧ sync_wait true true (.then_ .just_done zero_fn)
        = { outcome := .ill_formed, trace := [] } :=
  C6_sync_wait_done true true (my_sender0 .done)
    { value_types := [[]], error_types := [Ty.exception_ptr], sends_done := true } []
    zero_fn rfl rfl rfl rfl rfl

/-- C7 (counterexample): `sync_wait(just_error(p))`, `p` an `exception_ptr`
holding `7`, is rejected at resolution time, whatever the answer to the access
question; it does not throw `7`. -/
theorem C7_counterexample :
    (sync_wait true true (.just_error (.eptr (.int 7)))).outcome = .ill_formed
    ∧ (sync_wait true true (.just_error (.eptr (.int 7)))).outcome ≠ .throws (.int 7)
    ∧ (sync_wait false true (.just_error (.eptr (.int 7)))).outcome = .ill_formed
    ∧ (sync_wait false true (.just_error (.eptr (.int 7)))).outcome ≠ .throws (.int 7) := by
  refine ⟨rfl, ?_, rfl, ?_⟩ <;> decide

/-- C7 (amended): `sync_wait` of a typed sender with exactly one value shape that
is connectable to the waiter's receiver and completes with `set_error(p)`, `p` an
`exception_ptr` holding `e`, throws `e` and never returns an optional. For every
error value `e1`, `sync_wait(just_error(e1))` is rejected at resolution time,
because `just_error(e1)` advertises no value shape. -/
theorem C7_sync_wait_error (acc rv : Bool) (u : UserSender) (t : Traits) (shape : List Ty)
    (e e1 : Val) (hdecl : u.info.declared = some t) (hshape : t.value_types = [shape])
    (hconn : u.connects (.sync_wait shape) = true)
    (hop : u.op_state (.sync_wait shape) = true) (herr : u.completes = .error (.eptr e)) :
    sync_wait acc rv (.user u) = { outcome := .throws e, trace := [] }
    ∧ sync_wait acc rv (.just_error e1) = { outcome := .ill_formed, trace := [] } := by
  refine ⟨?_, sync_wait_just_error acc rv e1⟩
  rw [sync_wait_user acc rv u t shape hdecl hshape hconn hop, herr]
  rfl

/-- Witness for C7 (amended) at a sender with the metadata of `my_sender0` of the
tests, completing with `set_error` of an `exception_ptr` holding `7`. -/
theorem C7_sync_wait_error_witness :
    sync_wait true true (.user (my_sender0 (.error (.eptr (.int 7)))))
        = { outcome := .throws (.int 7), trace := [] }
    ∧ sync_wait true true (.just_error (.int 5)) = { outcome := .ill_formed, trace := [] } :=
  C7_sync_wait_error true true (my_sender0 (.error (.eptr (.int 7))))
    { value_types := [[]], error_types := [Ty.exception_ptr], sends_done := true } []
    (.int 7) (.int 5) rfl rfl rfl rfl rfl

/-! ### Further facts about the model -/

theorem then_shapes_single (f : Fn) (sh : List Ty) (vts : List (List Ty))
    (h : then_shapes f [sh] = some vts) : ∃ t, vts = [t] := by
  simp only [then_shapes] at h
  cases h1 : then_shape f sh with
  | none => simp [h1] at h
  | some t =>
      simp [h1] at h
      exact ⟨t, h.symm⟩

theorem default_viable_then (s : Sender) (f : Fn)
    (hs : sync_wait_default_viable s = true) (hthen : sender (.then_ s f) = true) :
    sync_wait_default_viable (.then_ s f) = true := by
  simp only [sync_wait_default_viable, typed_sender, sync_wait_result_t, sender,
    Bool.and_eq_true] at hs hthen ⊢
  cases ht : sender_traits s with
  | typed t =>
      simp only [ht, TraitsBase.metadata] at hs
      cases hv : t.value_types with
      | nil => simp [hv] at hs
      | cons sh rest =>
          cases rest with
          | cons a b => simp [hv] at hs
          | nil =>
              cases hsh : then_shapes f [sh] with
              | none => simp [sender_traits, ht, hv, hsh, TraitsBase.unspecialized] at hthen
              | some vts =>
                  obtain ⟨t1, ht1⟩ := then_shapes_single f sh vts hsh
                  simp [sender_traits, ht, hv, hsh, ht1, TraitsBase.unspecialized,
                    TraitsBase.metadata]
  | sender_base => simp [ht, TraitsBase.metadata] at hs
  | no_sender_traits => simp [ht, TraitsBase.metadata] at hs
  | typed_swapped t => simp [sender_traits, ht, TraitsBase.unspecialized] at hthen

theorem sync_wait_invocable_default (s : Sender) :
    sync_wait_invocable s = true → sync_wait_default_viable s = true := by
  induction s with
  | just vs => simp [sync_wait_invocable]
  | just_error e => simp [sync_wait_invocable]
  | just_done => simp [sync_wait_invocable]
  | user u => simp [sync_wait_invocable]
  | write s q v _ => simp [sync_wait_invocable]
  | then_ s f ih =>
      intro h
      simp only [sync_wait_invocable] at h
      cases hdv : sync_wait_default_viable (.then_ s f) with
      | true => rfl
      | false =>
          simp only [hdv, Bool.xor_false, Bool.and_eq_true] at h
          have := default_viable_then s f (ih h.2) h.1
          simp [hdv] at this

/-- The `tag_invoke` call operator of `sync_wait_t` is never the only viable one:
whenever the forwarding friend of a `then` sender is usable, so is the
typed-sender operator. -/
theorem sync_wait_tag_only_unreachable (s : Sender) (f : Fn) :
    ¬ ((sender (.then_ s f) && sync_wait_invocable s) = true
        ∧ sync_wait_default_viable (.then_ s f) = false) := by
  rintro ⟨h1, h2⟩
  simp only [Bool.and_eq_true] at h1
  have := default_viable_then s f (sync_wait_invocable_default s h1.2) h1.1
  simp [h2] at this

theorem start_never_throws (acc : Bool) (op : OpState) (w : World) (e : Val) :
    (start acc op w).2 ≠ Flow.throwing e := by
  induction op with
  | just_op sig r =>
      simp only [start]
      split
      · rw [set_error_flow]; simp
      · rename_i res hres
        intro h
        exact hres (r.complete acc sig w).1 e (Prod.ext rfl h)
  | user_op sig r =>
      simp only [start, noexcept_]
      split <;> simp_all
  | awaitable_op sig r =>
      simp only [start]
      split
      · rw [set_error_flow]; simp
      · rename_i res hres
        intro h
        exact hres (r.complete acc sig w).1 e (Prod.ext rfl h)
  | write_op v inner ih => simpa [start] using ih

/-! ## Properties of the specification: concepts and queries -/

theorem isSome_ite {α : Type} (b : Bool) (x : α) :
    (if b = true then some x else none).isSome = b := by
  cases b <;> rfl

theorem sender_to_user (acc : Bool) (u : UserSender) (r : Receiver)
    (hs : sender (.user u) = true) (hr : receiver r Ty.exception_ptr = true) :
    sender_to acc (.user u) r
      = ((u.connects r && u.op_state r) ||
          (!u.connects r &&
            match u.info.awaitable with
            | some T => receiver_of acc r (if T = Ty.void then [] else [T])
            | none => false)) := by
  simp only [sender_to, connect, hs, hr, Bool.true_and]
  cases hc : u.connects r <;> cases ho : u.op_state r <;> cases ha : u.info.awaitable <;>
    simp [isSome_ite]

/-- The senders `empty_sender` and `simple_sender` of the tests: both model
`sender` and not `typed_sender`; `empty_sender` is not `sender_to` a receiver
that accepts everything, `simple_sender` is. -/
theorem tests_sender_base :
    sender (.user empty_sender) = true ∧ typed_sender (.user empty_sender) = false
    ∧ sender_to true (.user empty_sender) (.user any_recv) = false
    ∧ sender (.user simple_sender) = true ∧ typed_sender (.user simple_sender) = false
    ∧ sender_to true (.user simple_sender) (.user any_recv) = true :=
  ⟨rfl, rfl, rfl, rfl, rfl, rfl⟩

/-- C11 (counterexample): a type that derives from `sender_base`, declares no
metadata and no `tag_invoke` for `connect_t`, but is awaitable with result `int`,
is `sender_to` a receiver that accepts `set_value(int)`: the second call operator
of `connect_t` adapts the awaitable. -/
theorem C11_counterexample :
    awaitable_base_sender.info.declared = none
    ∧ awaitable_base_sender.info.derives_sender_base = true
    ∧ awaitable_base_sender.connects (.user any_recv) = false
    ∧ receiver (.user any_recv) Ty.exception_ptr = true
    ∧ sender_to true (.user awaitable_base_sender) (.user any_recv) = true
    ∧ sender_to false (.user awaitable_base_sender) (.user any_recv) = true :=
  ⟨rfl, rfl, rfl, rfl, rfl, rfl⟩

/-- C11 (amended): for every type `S` deriving from `sender_base` that does not
declare metadata: `S` models `sender` and does not model `typed_sender`. For
every receiver `R` (a type that models `receiver`): if `S` is not awaitable,
`sender_to<S, R>` holds if and only if a `tag_invoke` for `connect_t` accepting
`(S, R)` exists and returns an operation state; if such a `tag_invoke` exists,
`sender_to<S, R>` holds if and only if it returns an operation state; and if `S`
is awaitable with result `T` and no such `tag_invoke` exists, `sender_to<S, R>`
holds as soon as `R` accepts `set_value` with `T` (with nothing for `void`). -/
theorem C11_sender_base_sender_to (acc : Bool) (u : UserSender) (r : Receiver)
    (hdecl : u.info.declared = none) (hbase : u.info.derives_sender_base = true)
    (hr : receiver r Ty.exception_ptr = true) :
    sender (.user u) = true
    ∧ typed_sender (.user u) = false
    ∧ (u.info.awaitable = none →
        (sender_to acc (.user u) r = true ↔ (u.connects r = true ∧ u.op_state r = true)))
    ∧ (u.connects r = true → (sender_to acc (.user u) r = true ↔ u.op_state r = true))
    ∧ (∀ T, u.info.awaitable = some T → u.connects r = false →
        receiver_of acc r (if T = Ty.void then [] else [T]) = true →
        sender_to acc (.user u) r = true) := by
  have hs : sender (.user u) = true := by
    simp [sender, sender_traits, sender_traits_base_fn, hdecl, hbase, TraitsBase.unspecialized]
  have ht : typed_sender (.user u) = false := by
    simp [typed_sender, sender_traits, sender_traits_base_fn, hdecl, hbase,
      TraitsBase.metadata]
  refine ⟨hs, ht, ?_, ?_, ?_⟩
  · intro ha
    rw [sender_to_user acc u r hs hr, ha]
    simp
  · intro hc
    rw [sender_to_user acc u r hs hr, hc]
    simp
  · intro T ha hc hro
    rw [sender_to_user acc u r hs hr, ha, hc]
    simp [hro]

/-- Witness for C11 (amended) at `simple_sender` of the tests and a receiver
that accepts everything. -/
theorem C11_sender_base_sender_to_witness :
    simple_sender.info.declared = none
    ∧ simple_sender.info.derives_sender_base = true
    ∧ receiver (.user any_recv) Ty.exception_ptr = true
    ∧ sender_to true (.user simple_sender) (.user any_recv) = true :=
  ⟨rfl, rfl, rfl,
   ((C11_sender_base_sender_to true simple_sender (.user any_recv) rfl rfl rfl).2.2.1 rfl).2
     ⟨rfl, rfl⟩⟩

/-- C12: `sender_of<S, Args...>` holds exactly when `S` is a typed sender whose
only value shape equals `(Args...)`. A sender declaring the single shape `()`
models `sender_of<>` and not `sender_of<int>`; a sender declaring the single
shape `(int)` models `sender_of<int>` and none of `sender_of<>`,
`sender_of<double>`, `sender_of<short>`; the untyped senders `empty_sender` and
`simple_sender` model no `sender_of`. -/
theorem C12_sender_of (s : Sender) (args : List Ty) (sig : Signal) :
    (sender_of s args = true ↔
        (typed_sender s = true
          ∧ ∃ t, (sender_traits s).metadata = some t ∧ t.value_types = [args]))
    ∧ sender_of (.user (my_sender0 sig)) [] = true
    ∧ sender_of (.user (my_sender0 sig)) [Ty.int] = false
    ∧ sender_of (.user (my_sender_int sig)) [Ty.int] = true
    ∧ sender_of (.user (my_sender_int sig)) [] = false
    ∧ sender_of (.user (my_sender_int sig)) [Ty.double] = false
    ∧ sender_of (.user (my_sender_int sig)) [Ty.short] = false
    ∧ sender_of (.user empty_sender) args = false
    ∧ sender_of (.user simple_sender) args = false := by
  refine ⟨?_, rfl, rfl, rfl, rfl, rfl, rfl, rfl, rfl⟩
  cases hm : (sender_traits s).metadata with
  | none => simp [sender_of, hm]
  | some t => simp [sender_of, hm]

/-! ### The single-typed-sender predicate -/

theorem single_or_void_t_isSome (ts : List Ty) :
    (single_or_void_t ts).isSome = true ↔ ts.length ≤ 1 := by
  match ts with
  | [] => simp [single_or_void_t]
  | [A] => simp [single_or_void_t]
  | A :: B :: rest => simp [single_or_void_t]

theorem single_sender_value_shapes (shapes : List (List Ty)) :
    (match single_or_void_each shapes with
      | some ts => single_or_void_t ts
      | none => none).isSome = true
      ↔ (shapes.length ≤ 1 ∧ ∀ sh ∈ shapes, sh.length ≤ 1) := by
  match shapes with
  | [] => simp [single_or_void_each, single_or_void_t]
  | [sh] =>
      have hlen := single_or_void_t_isSome sh
      cases h : single_or_void_t sh with
      | none =>
          simp only [h, Option.isSome_none, Bool.false_eq_true, false_iff, not_le] at hlen
          simp only [single_or_void_each, h]
          simp
          omega
      | some T =>
          simp only [h, Option.isSome_some, true_iff] at hlen
          simp only [single_or_void_each, h]
          simp [single_or_void_t, hlen]
  | a :: b :: rest =>
      cases ha : single_or_void_t a <;> cases hb : single_or_void_t b <;>
        cases hr : single_or_void_each rest <;>
        simp only [single_or_void_each, ha, hb, hr] <;> simp [single_or_void_t]

/-- C13 (counterexample): `just_done()` and `just_error(1)` are typed, advertise
no value shape, and model `__single_typed_sender` (the value type is `void`). -/
theorem C13_counterexample :
    sender_traits .just_done
        = .typed { value_types := [], error_types := [], sends_done := true }
    ∧ single_sender_value_t .just_done = some Ty.void
    ∧ single_typed_sender .just_done = true
    ∧ sender_traits (.just_error (.int 1))
        = .typed { value_types := [], error_types := [Ty.int], sends_done := false }
    ∧ single_typed_sender (.just_error (.int 1)) = true :=
  ⟨rfl, rfl, rfl, rfl, rfl⟩

/-- C13 (amended): for every sender type `S`, `__single_typed_sender<S>` holds if
and only if `S` is typed and advertises at most one value shape, of arity 0 or 1;
a typed sender advertising no value shape (such as `just_done()` or
`just_error(e)`) is a single-typed sender. -/
theorem C13_single_typed_sender (s : Sender) (e : Val) :
    (single_typed_sender s = true ↔
        (typed_sender s = true
          ∧ ∃ t, (sender_traits s).metadata = some t
              ∧ t.value_types.length ≤ 1 ∧ ∀ sh ∈ t.value_types, sh.length ≤ 1))
    ∧ single_typed_sender .just_done = true
    ∧ single_typed_sender (.just_error e) = true := by
  refine ⟨?_, rfl, rfl⟩
  cases hm : (sender_traits s).metadata with
  | none => simp [single_typed_sender, single_sender_value_t, hm]
  | some t =>
      simp only [single_typed_sender, single_sender_value_t, hm, Bool.and_eq_true,
        Option.some.injEq, exists_eq_left']
      rw [single_sender_value_shapes]

/-! ### The result type of `sync_wait` -/

theorem sync_wait_not_viable (acc rv : Bool) (s : Sender)
    (h : sync_wait_default_viable s = false) :
    sync_wait acc rv s = { outcome := .ill_formed, trace := [] } := by
  cases s with
  | just vs => simp [sync_wait, h]
  | just_error e => simp [sync_wait, h]
  | just_done => simp [sync_wait, h]
  | user u => simp [sync_wait, h]
  | write s q v => simp [sync_wait, h]
  | then_ base f =>
      cases htag : (sender (.then_ base f) && sync_wait_invocable base) with
      | false => simp [sync_wait, htag, h]
      | true => exact absurd ⟨htag, h⟩ (sync_wait_tag_only_unreachable base f)

/-- C14: for every typed sender whose metadata is a variant of tuples `t`: when
it advertises two or more value shapes, `__sync_wait_result_t` is undefined, the
typed-sender call operator of `sync_wait` is not viable and the call
`sync_wait(s)` is rejected; when it advertises exactly one value shape, of any
arity, that operator is viable and its result type is `optional` of the tuple of
that shape. -/
theorem C14_sync_wait_result_type (acc rv : Bool) (s : Sender) (t : Traits)
    (ht : sender_traits s = .typed t) :
    (2 ≤ t.value_types.length →
        sync_wait_result_t s = none
        ∧ sync_wait_default_viable s = false
        ∧ sync_wait acc rv s = { outcome := .ill_formed, trace := [] })
    ∧ (∀ shape, t.value_types = [shape] →
        sync_wait_default_viable s = true ∧ sync_wait_result_t s = some shape) := by
  constructor
  · intro hlen
    have hres : sync_wait_result_t s = none := by
      simp only [sync_wait_result_t, ht]
      match hv : t.value_types with
      | [] => simp [hv] at hlen
      | [a] => simp [hv] at hlen
      | a :: b :: rest => rfl
    have hv : sync_wait_default_viable s = false := by
      simp [sync_wait_default_viable, hres]
    exact ⟨hres, hv, sync_wait_not_viable acc rv s hv⟩
  · intro shape hshape
    simp [sync_wait_default_viable, typed_sender, sender, sync_wait_result_t, ht, hshape,
      TraitsBase.unspecialized, TraitsBase.metadata]

/-- Witness for C14 at `multival_sender` of the tests, with the value shapes
`(int, double)` and `(short, long)`. -/
theorem C14_sync_wait_result_type_witness :
    sender_traits (.user multival_sender)
        = .typed { value_types := [[Ty.int, Ty.double], [Ty.short, Ty.long]],
                   error_types := [Ty.exception_ptr], sends_done := false }
    ∧ sync_wait_result_t (.user multival_sender) = none
    ∧ sync_wait_default_viable (.user multival_sender) = false
    ∧ sync_wait true true (.user multival_sender) = { outcome := .ill_formed, trace := [] } :=
  ⟨rfl,
   (C14_sync_wait_result_type true true (.user multival_sender)
      { value_types := [[Ty.int, Ty.double], [Ty.short, Ty.long]],
        error_types := [Ty.exception_ptr], sends_done := false } rfl).1 (by decide)⟩

/-! ### The stop-token query -/

theorem get_stop_token_isSome (stoppable : Ty → Bool) (r : Receiver)
    (hr : receiver r Ty.exception_ptr = true) : (get_stop_token stoppable r).isSome = true := by
  induction r with
  | user u =>
      simp only [get_stop_token, hr, if_true]
      cases hq : u.queries get_stop_token_tag with
      | none => rfl
      | some v => cases hst : stoppable v.typeOf <;> simp [hst]
  | sync_wait t => rfl
  | then_ base f ih => exact ih hr
  | write_ q v base ih =>
      have hb : receiver base Ty.exception_ptr = true := hr
      simp only [get_stop_token, hb, if_true]
      by_cases hq : q = get_stop_token_tag
      · cases hst : stoppable v.typeOf <;> simp [hq, hst]
      · simpa [hq] using ih hb
  | submit_wrap r ih => exact ih hr

/-- C15: for every receiver `r`, with whatever `stoppable_token` is:
`get_stop_token(r)` is well-formed; if `r` has no `tag_invoke` for
`get_stop_token_t`, the call returns a `never_stop_token` (from the overload that
is declared `noexcept`); if `r` has one and its result `v` models
`stoppable_token`, the call returns `v`. -/
theorem C15_get_stop_token (stoppable : Ty → Bool) (r : Receiver)
    (hr : receiver r Ty.exception_ptr = true) :
    (get_stop_token stoppable r).isSome = true
    ∧ (stop_token_dispatcher stoppable r = none →
        get_stop_token stoppable r = some .never_stop_token)
    ∧ (∀ v, stop_token_dispatcher stoppable r = some (.of v) → stoppable v.typeOf = true →
        get_stop_token stoppable r = some (.of v)) := by
  refine ⟨get_stop_token_isSome stoppable r hr, ?_, ?_⟩
  · intro hnone
    cases r with
    | user u =>
        simp only [stop_token_dispatcher, Option.map_eq_none'] at hnone
        simp [get_stop_token, hr, hnone]
    | sync_wait t => rfl
    | then_ base f =>
        have := get_stop_token_isSome stoppable base hr
        simp only [stop_token_dispatcher] at hnone
        simp [hnone] at this
    | write_ q v base =>
        have hb : receiver base Ty.exception_ptr = true := hr
        have := get_stop_token_isSome stoppable base hb
        by_cases hq : q = get_stop_token_tag
        · simp [stop_token_dispatcher, hq] at hnone
        · simp only [stop_token_dispatcher, hq, if_false] at hnone
          simp [hnone] at this
    | submit_wrap r0 =>
        have := get_stop_token_isSome stoppable r0 hr
        simp only [stop_token_dispatcher] at hnone
        simp [hnone] at this
  · intro v hsome hst
    cases r with
    | user u =>
        simp only [stop_token_dispatcher, Option.map_eq_some', StopToken.of.injEq,
          exists_eq_right] at hsome
        simp [get_stop_token, hr, hsome, hst]
    | sync_wait t => simp [stop_token_dispatcher] at hsome
    | then_ base f => exact hsome
    | write_ q v1 base =>
        have hb : receiver base Ty.exception_ptr = true := hr
        by_cases hq : q = get_stop_token_tag
        · simp only [stop_token_dispatcher, hq, if_true, Option.some.injEq,
            StopToken.of.injEq] at hsome
          subst hsome
          simp [get_stop_token, hb, hq, hst]
        · simp only [stop_token_dispatcher, hq, if_false] at hsome
          simp [get_stop_token, hb, hq, hsome]
    | submit_wrap r0 => exact hsome

/-- Witness for C15 at a caller's receiver that answers `get_stop_token` with the
token `obj 9 1`, every type being a stoppable token. -/
theorem C15_get_stop_token_witness :
    receiver (.user token_recv) Ty.exception_ptr = true
    ∧ stop_token_dispatcher (fun _ => true) (.user token_recv) = some (.of (.obj 9 1))
    ∧ get_stop_token (fun _ => true) (.user token_recv) = some (.of (.obj 9 1)) :=
  ⟨rfl, rfl,
   (C15_get_stop_token (fun _ => true) (.user token_recv) rfl).2.2 (.obj 9 1) rfl rfl⟩

/-! ## Properties of the specification: factories, `connect` and `start` -/

/-- C16: the factories advertise exactly this metadata: `just(xs...)` the single
value shape of the types of `xs...`, the single error shape `exception_ptr` and
`sends_done = false`; `just_error(e)` no value shape, the single error shape of
`e` and `sends_done = false`; `just_done()` no value shape, no error shape and
`sends_done = true`. All three are typed senders. -/
theorem C16_factory_metadata (vs : List Val) (e : Val) :
    sender_traits (.just vs)
        = .typed { value_types := [vs.map Val.typeOf], error_types := [Ty.exception_ptr],
                   sends_done := false }
    ∧ sender_traits (.just_error e)
        = .typed { value_types := [], error_types := [e.typeOf], sends_done := false }
    ∧ sender_traits .just_done
        = .typed { value_types := [], error_types := [], sends_done := true }
    ∧ typed_sender (.just vs) = true
    ∧ typed_sender (.just_error e) = true
    ∧ typed_sender .just_done = true :=
  ⟨rfl, rfl, rfl, rfl, rfl, rfl⟩

/-- C17: for every `just(xs...)` connected to a receiver `r` whose `set_value`
throws `E` when given `xs`: `start` on the operation state returns normally, and
what it does is `set_value(r, xs...)` followed by `set_error(r, p)` with `p` an
`exception_ptr` holding `E`. On a caller's receiver these are the two recorded
entries. -/
theorem C17_just_start_catches (acc rv : Bool) (vs : List Val) (r : Receiver) (E : Val)
    (w : World) (op : OpState)
    (hthrow : (r.set_value acc vs w).2 = Flow.throwing E)
    (hconn : connect acc rv (.just vs) r = some op) :
    start acc op w = r.set_error (.eptr E) (r.set_value acc vs w).1
    ∧ (start acc op w).2 = Flow.normal
    ∧ ∀ u, r = .user u →
        start acc op w
          = ((w.emit (.set_value u.id vs)).emit (.set_error u.id (.eptr E)), Flow.normal) := by
  have hop : op = .just_op (.value vs) r := by
    simp only [connect] at hconn
    split at hconn
    · simp only [Option.some.injEq] at hconn
      exact hconn.symm
    · simp at hconn
  subst hop
  have hstart : start acc (.just_op (.value vs) r) w
      = r.set_error (.eptr E) (r.set_value acc vs w).1 := by
    simp only [start, Receiver.complete]
    generalize r.set_value acc vs w = x at hthrow
    obtain ⟨w1, fl⟩ := x
    simp only at hthrow
    subst hthrow
    rfl
  refine ⟨hstart, ?_, ?_⟩
  · rw [hstart]
    exact set_error_flow r _ _
  · intro u hu
    subst hu
    rw [hstart]
    simp only [Receiver.set_value] at hthrow ⊢
    cases ht : u.value_throws vs with
    | none => simp [ht] at hthrow
    | some e1 => simp [ht, Receiver.set_error]

/-- Witness for C17: `just(1)` connected to a caller's receiver whose `set_value`
throws `13`. -/
theorem C17_just_start_catches_witness :
    ((Receiver.user throwing_recv).set_value true [.int 1] World.init).2 = Flow.throwing (.int 13)
    ∧ connect true true (.just [.int 1]) (.user throwing_recv)
        = some (.just_op (.value [.int 1]) (.user throwing_recv))
    ∧ start true (.just_op (.value [.int 1]) (.user throwing_recv)) World.init
        = ({ trace := [.set_value 1 [.int 1], .set_error 1 (.eptr (.int 13))],
             data := .monostate }, Flow.normal) :=
  ⟨rfl, rfl,
   (C17_just_start_catches true true [.int 1] (.user throwing_recv) (.int 13) World.init
      (.just_op (.value [.int 1]) (.user throwing_recv)) rfl rfl).2.2 throwing_recv rfl⟩

/-! ### `connect` completes nothing -/

theorem construct_id (acc : Bool) (op : OpState) (w : World) :
    op.construct acc w = (w, Flow.normal) := by
  induction op with
  | just_op sig r => rfl
  | user_op sig r => rfl
  | awaitable_op sig r => simp [OpState.construct, initial_suspend]
  | write_op v inner ih => simpa [OpState.construct] using ih

/-- C18: for every sender `s` of the model (built from `just`, `just_error`,
`just_done`, `then`, the environment-write adaptor, awaitables adapted by
`connect`, and callers' senders) and every receiver `r`: when `connect(s, r)` is
well-formed, running it returns the operation state, returns normally and
leaves the world as it found it: no completion function of `r` is entered and no
callable is invoked before `start` is called on the operation state. -/
theorem C18_connect_completes_nothing (acc rv : Bool) (s : Sender) (r : Receiver) (w : World)
    (op : OpState) (h : connect acc rv s r = some op) :
    connect_run acc rv s r w = some (op, (w, Flow.normal))
    ∧ ∀ res, connect_run acc rv s r w = some (op, res) → res.1.trace = w.trace := by
  have h1 : connect_run acc rv s r w = some (op, (w, Flow.normal)) := by
    simp only [connect_run, h, construct_id]
  refine ⟨h1, ?_⟩
  intro res hres
  rw [h1] at hres
  simp only [Option.some.injEq, Prod.mk.injEq, true_and] at hres
  rw [← hres]

/-- Witness for C18: the environment-write adaptor over an awaitable,
connected to a caller's receiver: `connect` builds the write operation around the
coroutine handle and records nothing. -/
theorem C18_connect_completes_nothing_witness :
    connect true true (.write (.user cancelled_awaitable) 2 (.int 1)) (.user any_recv)
      = some (.write_op (.int 1)
                (.awaitable_op .done (.write_ 2 (.int 1) (.user any_recv))))
    ∧ connect_run true true (.write (.user cancelled_awaitable) 2 (.int 1)) (.user any_recv)
        World.init
      = some (.write_op (.int 1)
                (.awaitable_op .done (.write_ 2 (.int 1) (.user any_recv))),
              (World.init, Flow.normal)) :=
  ⟨rfl,
   (C18_connect_completes_nothing true true (.write (.user cancelled_awaitable) 2 (.int 1))
      (.user any_recv) World.init
      (.write_op (.int 1) (.awaitable_op .done (.write_ 2 (.int 1) (.user any_recv))))
      rfl).1⟩

/-! ### One completion per `start` -/

theorem completions_on_emit (id : Nat) (w : World) (e : Event) :
    completions_on id (w.emit e).trace
      = completions_on id w.trace + (if e.completion_on id then 1 else 0) := by
  simp only [completions_on, World.emit, List.filter_append, List.length_append]
  cases h : e.completion_on id <;> simp [List.filter, h]

theorem chain_complete (acc : Bool) (u : UserRecv) (hu : ∀ vs, u.value_throws vs = none)
    (R : Receiver) (hR : R.chain_over u) :
    ∀ (sig : Signal) (w : World),
      (R.complete acc sig w).2 = Flow.normal
      ∧ completions_on u.id (R.complete acc sig w).1.trace
          = completions_on u.id w.trace + 1 := by
  induction R with
  | user u1 =>
      simp only [Receiver.chain_over] at hR
      subst hR
      intro sig w
      cases sig with
      | value vs =>
          simp [Receiver.complete, Receiver.set_value, hu vs, completions_on_emit,
            Event.completion_on]
      | error e =>
          simp [Receiver.complete, Receiver.set_error, completions_on_emit,
            Event.completion_on]
      | done =>
          simp [Receiver.complete, Receiver.set_done, completions_on_emit,
            Event.completion_on]
  | sync_wait t => simp [Receiver.chain_over] at hR
  | write_ q v base _ => simp [Receiver.chain_over] at hR
  | submit_wrap r0 _ => simp [Receiver.chain_over] at hR
  | then_ base f ih =>
      simp only [Receiver.chain_over] at hR
      obtain ⟨hf, hbase⟩ := hR
      have ihb := ih hbase
      intro sig w
      cases sig with
      | error e => exact ihb (.error e) w
      | done => exact ihb .done w
      | value vs =>
          have hinv : ∀ (xs : List Val),
              (noexcept_ (base.set_value acc xs (w.emit (.invoked f.id vs)))).2 = Flow.normal
              ∧ completions_on u.id
                  (noexcept_ (base.set_value acc xs (w.emit (.invoked f.id vs)))).1.trace
                  = completions_on u.id w.trace + 1 := by
            intro xs
            have h1 := ihb (.value xs) (w.emit (.invoked f.id vs))
            simp only [Receiver.complete] at h1
            rw [noexcept_of_normal _ h1.1]
            refine ⟨h1.1, ?_⟩
            rw [h1.2, completions_on_emit]
            simp [Event.completion_on]
          simp only [Receiver.complete, Receiver.set_value]
          split
          · cases hcall : f.call vs with
            | throws e => exact absurd hcall (hf vs e)
            | nothing => exact hinv []
            | value v =>
                simp only []
                split
                · exact hinv []
                · exact hinv [v]
          · exact ihb (.value vs) w

theorem connect_chain (acc : Bool) (u : UserRecv) (s : Sender)
    (hft : s.factory_then = true) (hfns : s.fns_nothrow) :
    ∀ (rv : Bool) (R : Receiver) (op : OpState), R.chain_over u →
      connect acc rv s R = some op →
      ∃ sig R1, op = .just_op sig R1 ∧ R1.chain_over u := by
  induction s with
  | just vs =>
      intro rv R op hR h
      simp only [connect] at h
      split at h
      · simp only [Option.some.injEq] at h
        exact ⟨_, R, h.symm, hR⟩
      · simp at h
  | just_error e =>
      intro rv R op hR h
      simp only [connect] at h
      split at h
      · simp only [Option.some.injEq] at h
        exact ⟨_, R, h.symm, hR⟩
      · simp at h
  | just_done =>
      intro rv R op hR h
      simp only [connect] at h
      split at h
      · simp only [Option.some.injEq] at h
        exact ⟨_, R, h.symm, hR⟩
      · simp at h
  | user u1 => simp [Sender.factory_then] at hft
  | write s1 q v _ => simp [Sender.factory_then] at hft
  | then_ s1 f ih =>
      intro rv R op hR h
      simp only [Sender.factory_then] at hft
      simp only [Sender.fns_nothrow] at hfns
      have ih1 := ih hft hfns.2
      simp only [connect] at h
      split at h
      · split at h
        · exact ih1 true (.then_ R f) op ⟨hfns.1, hR⟩ h
        · split at h
          · exact ih1 rv R op hR h
          · simp at h
      · simp at h

/-- C19 (counterexample): `just(1)` connected to a caller's receiver whose
`set_value` throws: a single `start` enters two completion functions of the
receiver, `set_value` and then `set_error`. -/
theorem C19_counterexample :
    connect true true (.just [.int 1]) (.user throwing_recv)
        = some (.just_op (.value [.int 1]) (.user throwing_recv))
    ∧ (start true (.just_op (.value [.int 1]) (.user throwing_recv)) World.init).1.trace
        = [.set_value 1 [.int 1], .set_error 1 (.eptr (.int 13))]
    ∧ completions_on throwing_recv.id
        (start true (.just_op (.value [.int 1]) (.user throwing_recv)) World.init).1.trace = 2
    ∧ completions_on throwing_recv.id
        (start false (.just_op (.value [.int 1]) (.user throwing_recv)) World.init).1.trace = 2 :=
  ⟨rfl, rfl, rfl, rfl⟩

/-- C19 (amended): for every operation state obtained by connecting a sender
built from `just`, `just_error`, `just_done` and `then` to a caller's receiver
`r`, if neither `set_value` of `r` nor any callable passed to `then` throws, a
single call to `start` returns normally and enters exactly one completion
function of `r`, exactly once. If `set_value` of `r` throws `E` under the
operation state of a `just`, `start` enters `set_value` and then `set_error` with
an `exception_ptr` holding `E`: two entries. -/
theorem C19_one_completion (acc rv : Bool) (s : Sender) (u : UserRecv) (op : OpState)
    (w : World) (hft : s.factory_then = true) (hfns : s.fns_nothrow)
    (hconn : connect acc rv s (.user u) = some op) :
    ((∀ vs, u.value_throws vs = none) →
        (start acc op w).2 = Flow.normal
        ∧ completions_on u.id (start acc op w).1.trace = completions_on u.id w.trace + 1)
    ∧ (∀ vs E, s = .just vs → u.value_throws vs = some E →
        (start acc op w).2 = Flow.normal
        ∧ (start acc op w).1.trace
            = w.trace ++ [.set_value u.id vs, .set_error u.id (.eptr E)]
        ∧ completions_on u.id (start acc op w).1.trace = completions_on u.id w.trace + 2) := by
  constructor
  · intro hu
    obtain ⟨sig, R1, hop, hR1⟩ := connect_chain acc u s hft hfns rv (.user u) op rfl hconn
    subst hop
    have hc := chain_complete acc u hu R1 hR1 sig w
    have hst : start acc (.just_op sig R1) w = R1.complete acc sig w := by
      simp only [start]
      exact catch_of_normal R1 _ hc.1
    rw [hst]
    exact hc
  · intro vs E hs hthrow
    subst hs
    have hop : op = .just_op (.value vs) (.user u) := by
      simp only [connect] at hconn
      split at hconn
      · simp only [Option.some.injEq] at hconn
        exact hconn.symm
      · simp at hconn
    subst hop
    have hst : start acc (.just_op (.value vs) (.user u)) w
        = ((w.emit (.set_value u.id vs)).emit (.set_error u.id (.eptr E)), Flow.normal) := by
      simp [start, Receiver.complete, Receiver.set_value, hthrow, Receiver.set_error]
    rw [hst]
    refine ⟨rfl, ?_, ?_⟩
    · simp [World.emit]
    · rw [completions_on_emit, completions_on_emit]
      simp [Event.completion_on]

/-- Witness for C19 (amended): `then(just(3), x → 0)` connected as an rvalue to a
caller's receiver that accepts everything and never throws: one `start`, one
completion entry. -/
theorem C19_one_completion_witness :
    connect true true (.then_ (.just [.int 3]) zero_fn) (.user any_recv)
        = some (.just_op (.value [.int 3]) (.then_ (.user any_recv) zero_fn))
    ∧ (start true (.just_op (.value [.int 3]) (.then_ (.user any_recv) zero_fn))
          World.init).2 = Flow.normal
    ∧ completions_on any_recv.id
        (start true (.just_op (.value [.int 3]) (.then_ (.user any_recv) zero_fn))
          World.init).1.trace = completions_on any_recv.id World.init.trace + 1 :=
  ⟨rfl,
   (C19_one_completion true true (.then_ (.just [.int 3]) zero_fn) any_recv
      (.just_op (.value [.int 3]) (.then_ (.user any_recv) zero_fn)) World.init rfl
      ⟨by
        intro vs e
        simp [zero_fn], trivial⟩
      rfl).1 (fun _ => rfl)⟩

/-! ### Completions and the advertised metadata -/

/-- The factories deliver only what they advertise to a caller's receiver that
does not throw: the trace of `start` from the initial world holds one entry, and
the metadata declares it. -/
theorem factories_advertise (acc rv : Bool) (u : UserRecv) (vs : List Val) (e : Val)
    (op : OpState) (hu : ∀ xs, u.value_throws xs = none) :
    (connect acc rv (.just vs) (.user u) = some op →
        (start acc op World.init).1.trace = [.set_value u.id vs]
        ∧ Traits.advertises
            { value_types := [vs.map Val.typeOf],
              error_types := [Ty.exception_ptr],
              sends_done := false }
            (.set_value u.id vs) = true)
    ∧ (connect acc rv (.just_error e) (.user u) = some op →
        (start acc op World.init).1.trace = [.set_error u.id e]
        ∧ Traits.advertises
            { value_types := [],
              error_types := [e.typeOf],
              sends_done := false }
            (.set_error u.id e) = true)
    ∧ (connect acc rv .just_done (.user u) = some op →
        (start acc op World.init).1.trace = [.set_done u.id]
        ∧ Traits.advertises
            { value_types := [],
              error_types := [],
              sends_done := true }
            (.set_done u.id) = true) := by
  refine ⟨?_, ?_, ?_⟩
  · intro h
    simp only [connect] at h
    split at h
    · simp only [Option.some.injEq] at h
      subst h
      simp [start, Receiver.complete, Receiver.set_value, hu vs, World.init, World.emit,
        Traits.advertises]
    · simp at h
  · intro h
    simp only [connect] at h
    split at h
    · simp only [Option.some.injEq] at h
      subst h
      simp [start, Receiver.complete, Receiver.set_error, World.init, World.emit,
        Traits.advertises]
    · simp at h
  · intro h
    simp only [connect] at h
    split at h
    · simp only [Option.some.injEq] at h
      subst h
      simp [start, Receiver.complete, Receiver.set_done, World.init, World.emit,
        Traits.advertises]
    · simp at h

/-- A second way to an undeclared completion: `then(just(3), x → "n")` advertises
the value shape `(string)`; connected to a receiver that accepts `set_value(int)`
but not `set_value(string)`, neither member `set_value` of the `then` receiver is
usable, the receiver adaptor forwards `set_value(3)` to the base, and the
callable is never invoked. -/
theorem then_forwards_unadvertised :
    sender_traits (.then_ (.just [.int 3]) label_fn)
        = .typed { value_types := [[Ty.string]], error_types := [Ty.exception_ptr],
                   sends_done := false }
    ∧ connect true true (.then_ (.just [.int 3]) label_fn) (.user int_recv)
        = some (.just_op (.value [.int 3]) (.then_ (.user int_recv) label_fn))
    ∧ start true (.just_op (.value [.int 3]) (.then_ (.user int_recv) label_fn)) World.init
        = ({ trace := [.set_value 3 [.int 3]], data := .monostate }, Flow.normal)
    ∧ Traits.advertises
        { value_types := [[Ty.string]],
          error_types := [Ty.exception_ptr],
          sends_done := false }
        (.set_value 3 [.int 3]) = false := by
  refine ⟨rfl, rfl, rfl, ?_⟩
  decide

/-- C20 (evaluation at the failing input: an awaitable with result `int` whose
await calls `unhandled_done()`, connected through the awaitable bridge to a
caller's receiver that accepts everything): the sender is typed, its metadata is
the one value shape `(int)`, the error shape `exception_ptr` and
`sends_done = false`; `start` enters `set_done` of the receiver, a completion the
metadata does not declare. The same holds for either answer to the access
question. -/
theorem C20_awaitable_done_unadvertised :
    typed_sender (.user cancelled_awaitable) = true
    ∧ sender_traits (.user cancelled_awaitable)
        = .typed { value_types := [[Ty.int]], error_types := [Ty.exception_ptr],
                   sends_done := false }
    ∧ connect true true (.user cancelled_awaitable) (.user any_recv)
        = some (.awaitable_op .done (.user any_recv))
    ∧ start true (.awaitable_op .done (.user any_recv)) World.init
        = ({ trace := [.set_done 0], data := .monostate }, Flow.normal)
    ∧ connect false true (.user cancelled_awaitable) (.user any_recv)
        = some (.awaitable_op .done (.user any_recv))
    ∧ start false (.awaitable_op .done (.user any_recv)) World.init
        = ({ trace := [.set_done 0], data := .monostate }, Flow.normal)
    ∧ Traits.advertises
        { value_types := [[Ty.int]],
          error_types := [Ty.exception_ptr],
          sends_done := false }
        (.set_done 0) = false :=
  ⟨rfl, rfl, rfl, rfl, rfl, rfl, rfl⟩

/-! ## Properties of the specification: the generic adaptors -/

/-! ### The receiver adaptor -/

/-- The `then` receiver is the receiver adaptor applied to the class described
by `then_receiver`: `set_value` on it is what the adaptor selects. -/
theorem then_receiver_set_value_eq (acc : Bool) (b : Receiver) (f : Fn) (vs : List Val)
    (w : World) (hb : receiver b Ty.exception_ptr = true) :
    receiver_adaptor_set_value acc (then_receiver acc b f) b vs w
      = if receiver_of acc (.then_ b f) (vs.map Val.typeOf) then
          some (Receiver.set_value acc (.then_ b f) vs w)
        else none := by
  have hro : receiver_of acc (.then_ b f) (vs.map Val.typeOf)
      = (has_set_value acc b f (vs.map Val.typeOf) || receiver_of acc b (vs.map Val.typeOf)) := by
    simp [receiver_of, has_set_value, hb]
  rw [hro]
  by_cases h1 : has_set_value acc b f (vs.map Val.typeOf) = true
  · simp [receiver_adaptor_set_value, receiver_adaptor_select_set_value, then_receiver, hb, h1,
      Receiver.set_value, then_receiver_set_value]
  · have h1f : has_set_value acc b f (vs.map Val.typeOf) = false := by simpa using h1
    by_cases h2 : receiver_of acc b (vs.map Val.typeOf) = true
    · simp [receiver_adaptor_set_value, receiver_adaptor_select_set_value, then_receiver, hb,
        h1f, h2, Receiver.set_value]
    · have h2f : receiver_of acc b (vs.map Val.typeOf) = false := by simpa using h2
      simp [receiver_adaptor_set_value, receiver_adaptor_select_set_value, then_receiver, hb,
        h1f, h2f]

/-- C21: for every class `Derived` over the receiver adaptor with base `b`: a
completion tag whose member `Derived` does not supply (as the adaptor tests it)
is forwarded to `b` unchanged (`set_value` with every argument list `b` accepts,
`set_error` with every error `b` accepts, `set_done`), every query has the
answer `b` gives, and a completion tag whose member `Derived` supplies is
dispatched to that member. The `then` receiver is the instance that supplies
`set_value` only. -/
theorem C21_receiver_adaptor_forwards (acc : Bool) (d : RecvDerived) (b : Receiver)
    (hb : receiver b Ty.exception_ptr = true) :
    (∀ vs w, d.has_set_value (vs.map Val.typeOf) = false →
        receiver_of acc b (vs.map Val.typeOf) = true →
        receiver_adaptor_set_value acc d b vs w = some (b.set_value acc vs w))
    ∧ (∀ e w, d.has_set_error e.typeOf = false → receiver b e.typeOf = true →
        receiver_adaptor_set_error d b e w = some (b.set_error e w))
    ∧ (∀ w, d.has_set_done = false →
        receiver_adaptor_set_done d b w = some (b.set_done w))
    ∧ (∀ q, receiver_adaptor_query b q = b.query q)
    ∧ (∀ vs w, d.has_set_value (vs.map Val.typeOf) = true →
        receiver_adaptor_set_value acc d b vs w = some (d.set_value vs w))
    ∧ (∀ e w, d.has_set_error e.typeOf = true → d.set_error_noexcept = true →
        receiver_adaptor_set_error d b e w = some (noexcept_ (d.set_error e w)))
    ∧ (∀ w, d.has_set_done = true → d.set_done_noexcept = true →
        receiver_adaptor_set_done d b w = some (noexcept_ (d.set_done w)))
    ∧ (∀ f vs w, receiver_adaptor_set_value acc (then_receiver acc b f) b vs w
        = if receiver_of acc (.then_ b f) (vs.map Val.typeOf) then
            some (Receiver.set_value acc (.then_ b f) vs w)
          else none)
    ∧ (∀ f e w, receiver (.then_ b f) e.typeOf = true →
        receiver_adaptor_set_error (then_receiver acc b f) b e w
          = some (Receiver.set_error (.then_ b f) e w))
    ∧ (∀ f w, receiver_adaptor_set_done (then_receiver acc b f) b w
          = some (Receiver.set_done (.then_ b f) w))
    ∧ (∀ f q, receiver_adaptor_query b q = (Receiver.then_ b f).query q) := by
  refine ⟨?_, ?_, ?_, ?_, ?_, ?_, ?_, ?_, ?_, ?_, ?_⟩
  · intro vs w h1 h2
    simp [receiver_adaptor_set_value, receiver_adaptor_select_set_value, hb, h1, h2]
  · intro e w h1 h2
    simp [receiver_adaptor_set_error, receiver_adaptor_select_set_error, hb, h1, h2]
  · intro w h1
    simp [receiver_adaptor_set_done, receiver_adaptor_select_set_done, hb, h1]
  · intro q
    simp [receiver_adaptor_query, hb]
  · intro vs w h1
    simp [receiver_adaptor_set_value, receiver_adaptor_select_set_value, hb, h1]
  · intro e w h1 h2
    simp [receiver_adaptor_set_error, receiver_adaptor_select_set_error, hb, h1, h2]
  · intro w h1 h2
    simp [receiver_adaptor_set_done, receiver_adaptor_select_set_done, hb, h1, h2]
  · intro f vs w
    exact then_receiver_set_value_eq acc b f vs w hb
  · intro f e w he
    have he1 : receiver b e.typeOf = true := he
    simp [receiver_adaptor_set_error, receiver_adaptor_select_set_error, then_receiver, hb, he1,
      Receiver.set_error]
  · intro f w
    simp [receiver_adaptor_set_done, receiver_adaptor_select_set_done, then_receiver, hb,
      Receiver.set_done]
  · intro f q
    simp [receiver_adaptor_query, hb, Receiver.query]

/-- Witness for C21 at the class of the `then` receiver with the callable
`x → x + 1` over a caller's receiver that accepts everything: `set_done` is not
supplied and reaches the base; `set_value(3)` is supplied (when the member is
seen) and runs the member, which invokes the callable. -/
theorem C21_receiver_adaptor_forwards_witness :
    receiver (.user any_recv) Ty.exception_ptr = true
    ∧ receiver_adaptor_set_done (then_receiver true (.user any_recv) succ_fn) (.user any_recv)
        World.init
        = some ({ trace := [.set_done 0], data := .monostate }, Flow.normal)
    ∧ receiver_adaptor_set_value true (then_receiver true (.user any_recv) succ_fn)
        (.user any_recv) [.int 3] World.init
        = some ({ trace := [.invoked 3 [.int 3], .set_value 0 [.int 4]], data := .monostate },
                Flow.normal) :=
  ⟨rfl,
   (C21_receiver_adaptor_forwards true (then_receiver true (.user any_recv) succ_fn)
      (.user any_recv) rfl).2.2.1 World.init rfl,
   (C21_receiver_adaptor_forwards true (then_receiver true (.user any_recv) succ_fn)
      (.user any_recv) rfl).2.2.2.2.1 [.int 3] World.init rfl⟩

/-! ### The operation-state adaptor -/

/-- No reference type models `operation_state`. -/
theorem operation_state_lvalue_ref (T : OpTy) : operation_state T.lvalue_ref = false := by
  simp [operation_state, OpTy.lvalue_ref, is_object_v]

/-- C27 (evaluation at the failing input, a class without a member `start` over
the operation state of `just(1)` connected to a caller's receiver): the
forwarding friend of the operation-state adaptor requires
`operation_state<Base&>`, which no type satisfies, since a reference is not an
object. So for every class `Derived` without a member `start`, over every base
operation state, `start(derived)` is ill-formed and the base is never started,
whereas starting the base itself delivers its completion. Where `Derived`
supplies a `noexcept` member `start`, `start(derived)` calls it. -/
theorem C27_operation_state_adaptor_start :
    (∀ T : OpTy, operation_state T.lvalue_ref = false)
    ∧ (∀ (acc : Bool) (body : World → World × Flow) (ne : Bool) (b : OpState) (w : World),
        operation_state_adaptor_start acc
          { has_start := false, start := body, start_noexcept := ne } b w = none)
    ∧ (∀ (acc : Bool) (body : World → World × Flow) (b : OpState) (w : World),
        operation_state_adaptor_start acc
          { has_start := true, start := body, start_noexcept := true } b w
          = some (noexcept_ (body w)))
    ∧ operation_state (OpState.just_op (.value [.int 1]) (.user any_recv)).type = true
    ∧ operation_state_adaptor_start true plain_op_derived
        (.just_op (.value [.int 1]) (.user any_recv)) World.init = none
    ∧ operation_state_adaptor_start false plain_op_derived
        (.just_op (.value [.int 1]) (.user any_recv)) World.init = none
    ∧ start true (.just_op (.value [.int 1]) (.user any_recv)) World.init
        = ({ trace := [.set_value 0 [.int 1]], data := .monostate }, Flow.normal) := by
  refine ⟨operation_state_lvalue_ref, ?_, ?_, rfl, rfl, rfl, rfl⟩
  · intro acc body ne b w
    simp [operation_state_adaptor_start, operation_state_lvalue_ref]
  · intro acc body b w
    simp [operation_state_adaptor_start, operation_state, OpState.type, is_object_v]

/-! ### The continuation of `with_awaitable_senders_base` -/

/-- After any sequence of `set_continuation` calls, `continuation_` holds the
address of the last handle and `done_callback_` the lambda of the last handle
whose promise type has `unhandled_done()`. -/
theorem set_continuation_foldl (hs : List Handle) (st : AwaitableSendersBase) :
    hs.foldl set_continuation st
      = { continuation_ :=
            match hs.getLast? with
            | some h => some h.address
            | none => st.continuation_,
          done_callback_ :=
            match (hs.filter (fun h => h.promise.has_unhandled_done)).getLast? with
            | some h => .unhandled_done_of h.promise
            | none => st.done_callback_ } := by
  induction hs using List.reverseRecOn with
  | nil => rfl
  | append_singleton hs h ih =>
      rw [List.foldl_append, ih]
      by_cases hh : h.promise.has_unhandled_done = true
      · simp [set_continuation, hh, List.filter_append, List.getLast?_append]
      · have hf : h.promise.has_unhandled_done = false := by simpa using hh
        simp [set_continuation, hf, List.filter_append, List.getLast?_append]

/-- C25 (evaluation at the failing input, `set_continuation` with a handle whose
promise has `unhandled_done()` followed by `set_continuation` with a handle whose
promise has none): `unhandled_done()` does not terminate; it runs the
`unhandled_done()` of the earlier promise type on the frame of the later
continuation. In general the call runs the callback of the most recent
continuation among those whose promise has `unhandled_done()`, on the most
recent address; it agrees with the specification when the most recent
continuation has `unhandled_done()` and when no continuation so far had. -/
theorem C25_unhandled_done_stale_callback :
    unhandled_done
        (set_continuation
          (set_continuation AwaitableSendersBase.init { address := 10, promise := task_promise })
          { address := 20, promise := plain_promise })
      = .runs task_promise (some 20)
    ∧ unhandled_done_spec
        [{ address := 10, promise := task_promise }, { address := 20, promise := plain_promise }]
      = .terminates
    ∧ (∀ hs : List Handle,
        unhandled_done (hs.foldl set_continuation AwaitableSendersBase.init)
          = match (hs.filter (fun h => h.promise.has_unhandled_done)).getLast? with
            | some h => .runs h.promise (hs.getLast?.map Handle.address)
            | none => .terminates)
    ∧ (∀ (hs : List Handle) (h : Handle), h.promise.has_unhandled_done = true →
        unhandled_done ((hs ++ [h]).foldl set_continuation AwaitableSendersBase.init)
          = unhandled_done_spec (hs ++ [h]))
    ∧ (∀ hs : List Handle, (∀ h ∈ hs, h.promise.has_unhandled_done = false) →
        unhandled_done (hs.foldl set_continuation AwaitableSendersBase.init)
          = unhandled_done_spec hs)
    ∧ unhandled_done AwaitableSendersBase.init = unhandled_done_spec [] := by
  refine ⟨rfl, rfl, ?_, ?_, ?_, rfl⟩
  · intro hs
    rw [set_continuation_foldl]
    cases hf : (hs.filter (fun h => h.promise.has_unhandled_done)).getLast? with
    | none => simp [unhandled_done, AwaitableSendersBase.init]
    | some h =>
        cases hl : hs.getLast? with
        | none =>
            have : hs = [] := by simpa using hl
            subst this
            simp at hf
        | some l => simp [unhandled_done]
  · intro hs h hh
    rw [List.foldl_append]
    simp [set_continuation, hh, unhandled_done, unhandled_done_spec, List.getLast?_append]
  · intro hs hall
    rw [set_continuation_foldl]
    have hfil : hs.filter (fun h => h.promise.has_unhandled_done) = [] := by
      simp only [List.filter_eq_nil_iff]
      intro h hmem
      simp [hall h hmem]
    rw [hfil]
    cases hl : hs.getLast? with
    | none => simp [unhandled_done, unhandled_done_spec, AwaitableSendersBase.init, hl]
    | some l =>
        have hmem : l ∈ hs := List.mem_of_getLast?_eq_some hl
        simp [unhandled_done, unhandled_done_spec, AwaitableSendersBase.init, hl, hall l hmem]

/-! ## Properties of the specification: metadata of the adaptors -/

/-! ### The metadata of `then` -/

theorem then_shapes_some (f : Fn) (vts : List (List Ty))
    (hf : ∀ V ∈ vts, (f.result V).isSome = true) :
    ∃ rs, then_shapes f vts = some rs
      ∧ List.Forall₂
          (fun V R => ∃ T, f.result V = some T ∧ R = if T = Ty.void then [] else [T])
          vts rs := by
  induction vts with
  | nil => exact ⟨[], rfl, List.Forall₂.nil⟩
  | cons V rest ih =>
      obtain ⟨rs, hrs, hall⟩ := ih (fun W hW => hf W (List.mem_cons_of_mem V hW))
      have hV := hf V (List.mem_cons_self V rest)
      cases hres : f.result V with
      | none => simp [hres] at hV
      | some T =>
          refine ⟨(if T = Ty.void then [] else [T]) :: rs, ?_, ?_⟩
          · by_cases hT : T = Ty.void <;> simp [then_shapes, then_shape, hres, hrs, hT]
          · exact List.Forall₂.cons ⟨T, hres, rfl⟩ hall

theorem then_shapes_none (f : Fn) (vts : List (List Ty))
    (hf : ∃ V ∈ vts, f.result V = none) : then_shapes f vts = none := by
  induction vts with
  | nil => simp at hf
  | cons V rest ih =>
      obtain ⟨W, hW, hres⟩ := hf
      rcases List.mem_cons.mp hW with h | h
      · subst h
        simp [then_shapes, then_shape, hres]
      · have := ih ⟨W, h, hres⟩
        simp only [then_shapes, this]
        cases then_shape f V <;> rfl

/-- C26: for every sender `s` whose metadata are the value shapes `V1..Vk`, error
types and `sends_done` of `t`, and every callable `f`: when `f` is invocable on
each `Vi`, `then(s, f)` is a typed sender whose value shapes are, in the same
order and number, the result type of `f` on `Vi` as a one-element shape, or the
empty shape when that result is `void`, and whose error types and `sends_done`
are those of `s`; when `f` is not invocable on some `Vi`, `then(s, f)` is not a
typed sender. -/
theorem C26_then_metadata (s : Sender) (f : Fn) (t : Traits)
    (hs : sender_traits s = .typed t) :
    ((∀ V ∈ t.value_types, (f.result V).isSome = true) →
      ∃ vts, sender_traits (.then_ s f)
              = .typed { value_types := vts, error_types := t.error_types,
                         sends_done := t.sends_done }
        ∧ typed_sender (.then_ s f) = true
        ∧ vts.length = t.value_types.length
        ∧ List.Forall₂
            (fun V R => ∃ T, f.result V = some T ∧ R = if T = Ty.void then [] else [T])
            t.value_types vts)
    ∧ ((∃ V ∈ t.value_types, f.result V = none) → typed_sender (.then_ s f) = false) := by
  constructor
  · intro hf
    obtain ⟨vts, hvts, hall⟩ := then_shapes_some f t.value_types hf
    refine ⟨vts, ?_, ?_, hall.length_eq.symm, hall⟩
    · simp [sender_traits, hs, hvts]
    · simp [typed_sender, sender, sender_traits, hs, hvts, TraitsBase.unspecialized,
        TraitsBase.metadata]
  · intro hf
    have hnone := then_shapes_none f t.value_types hf
    simp [typed_sender, sender, sender_traits, hs, hnone, TraitsBase.unspecialized]

/-- Witness for C26 at a sender with the two value shapes `(int, double)` and
`(short, long)` and the overloaded callable that returns nothing on the first
and a `long` on the second: the `then` sender advertises the empty shape and
`(long)`, in this order. At `x → x + 1`, which accepts neither shape, the `then`
sender is not typed. -/
theorem C26_then_metadata_witness :
    sender_traits (.user multival_sender)
      = .typed { value_types := [[Ty.int, Ty.double], [Ty.short, Ty.long]],
                 error_types := [Ty.exception_ptr], sends_done := false }
    ∧ sender_traits (.then_ (.user multival_sender) overloaded_fn)
      = .typed { value_types := [[], [Ty.long]], error_types := [Ty.exception_ptr],
                 sends_done := false }
    ∧ typed_sender (.then_ (.user multival_sender) succ_fn) = false :=
  ⟨rfl, rfl,
   (C26_then_metadata (.user multival_sender) succ_fn
      { value_types := [[Ty.int, Ty.double], [Ty.short, Ty.long]],
        error_types := [Ty.exception_ptr], sends_done := false } rfl).2
      ⟨[Ty.int, Ty.double], by decide, rfl⟩⟩

/-! ### The metadata of the environment-write adaptor -/

/-- C29 (evaluation at the failing input `__write(just(3, 4), get_stop_token, 0)`):
the write sender declares `value_types<Tuple, Variant>` as the `value_types` of
its input with the two arguments exchanged, so for every input and every choice
of `Tuple` and `Variant` it equals the input's `value_types<Variant, Tuple>`. For
`just(3, 4)` and the templates `tuple` and `variant` this is
`tuple<variant<int, int>>`, not the `variant<tuple<int, int>>` of the input, and
`sync_wait`, which accepts `just(3, 4)` and returns `(3, 4)`, rejects the write
sender. The error types and `sends_done` are those of the input. -/
theorem C29_write_value_types_swapped :
    (∀ {α : Type} (leaf : Ty → α) (Tuple Variant : List α → α) (s : Sender) (q : Nat)
        (v : Val),
        (sender_traits (.write s q v)).value_types_of leaf Tuple Variant
          = (sender_traits s).value_types_of leaf Variant Tuple
        ∧ (sender_traits (.write s q v)).error_types_of leaf Variant
          = (sender_traits s).error_types_of leaf Variant
        ∧ (sender_traits (.write s q v)).sends_done_of = (sender_traits s).sends_done_of)
    ∧ (sender_traits (.just [.int 3, .int 4])).value_types_of
          TyExpr.leaf TyExpr.tuple TyExpr.variant
        = some (.variant [.tuple [.leaf Ty.int, .leaf Ty.int]])
    ∧ (sender_traits (.write (.just [.int 3, .int 4]) get_stop_token_tag (.int 0))).value_types_of
          TyExpr.leaf TyExpr.tuple TyExpr.variant
        = some (.tuple [.variant [.leaf Ty.int, .leaf Ty.int]])
    ∧ (sender_traits (.write (.just [.int 3, .int 4]) get_stop_token_tag (.int 0))).value_types_of
          TyExpr.leaf TyExpr.tuple TyExpr.variant
        ≠ (sender_traits (.just [.int 3, .int 4])).value_types_of
          TyExpr.leaf TyExpr.tuple TyExpr.variant
    ∧ (∀ acc : Bool, sync_wait acc true (.just [.int 3, .int 4])
        = { outcome := .returns (some [.int 3, .int 4]), trace := [] })
    ∧ (∀ acc : Bool,
        sync_wait acc true (.write (.just [.int 3, .int 4]) get_stop_token_tag (.int 0))
        = { outcome := .ill_formed, trace := [] }) := by
  refine ⟨?_, rfl, rfl, ?_, ?_, ?_⟩
  · intro α leaf Tuple Variant s q v
    cases hs : sender_traits s <;>
      simp [sender_traits, hs, TraitsBase.value_types_of, TraitsBase.error_types_of,
        TraitsBase.sends_done_of]
  · simp [sender_traits, TraitsBase.value_types_of, Traits.value_types_of]
  · intro acc
    cases acc <;> rfl
  · intro acc
    cases acc <;> rfl

/-! ### Connecting `just_error` and `just_done` -/

/-- C30 (evaluation at the failing input, a receiver that accepts every error and
`set_done` and declares no `set_value`): `connect(just_error(e), r)` and
`connect(just_done(), r)` are ill-formed, for every `e`, because the `connect`
friends of the factories require `receiver_of<R, Ts...>` over the stored types:
`set_value(r, e)` for `just_error(e)` and `set_value(r)` for `just_done()`. In
general the two are connectable exactly to the receivers that also accept that
`set_value`; once connected, `start` calls `set_error(r, e)`, respectively
`set_done(r)`, and nothing else. -/
theorem C30_just_error_done_connect :
    (∀ E : Ty, receiver (.user error_only_recv) E = true)
    ∧ (∀ (acc rv : Bool) (e : Val),
        connect acc rv (.just_error e) (.user error_only_recv) = none)
    ∧ (∀ acc rv : Bool, connect acc rv .just_done (.user error_only_recv) = none)
    ∧ (∀ (acc rv : Bool) (e : Val) (r : Receiver),
        (connect acc rv (.just_error e) r).isSome
          = (receiver r Ty.exception_ptr && receiver r e.typeOf
              && receiver_of acc r [e.typeOf]))
    ∧ (∀ (acc rv : Bool) (r : Receiver),
        (connect acc rv .just_done r).isSome
          = (receiver r Ty.exception_ptr && receiver_of acc r []))
    ∧ (∀ (acc rv : Bool) (e : Val) (r : Receiver) (w : World),
        (connect acc rv (.just_error e) r).map (fun op => start acc op w)
          = if receiver r Ty.exception_ptr && receiver r e.typeOf
                && receiver_of acc r [e.typeOf] then some (r.set_error e w)
            else none)
    ∧ (∀ (acc rv : Bool) (r : Receiver) (w : World),
        (connect acc rv .just_done r).map (fun op => start acc op w)
          = if receiver r Ty.exception_ptr && receiver_of acc r [] then some (r.set_done w)
            else none)
    ∧ (∀ (acc : Bool) (e : Val),
        start acc (.just_op (.error e) (.user any_recv)) World.init
          = ({ trace := [.set_error 0 e], data := .monostate }, Flow.normal))
    ∧ (∀ acc : Bool,
        start acc (.just_op .done (.user any_recv)) World.init
          = ({ trace := [.set_done 0], data := .monostate }, Flow.normal)) := by
  refine ⟨?_, ?_, ?_, ?_, ?_, ?_, ?_, ?_, ?_⟩
  · intro E
    rfl
  · intro acc rv e
    simp [connect, receiver, receiver_of, error_only_recv]
  · intro acc rv
    simp [connect, receiver, receiver_of, error_only_recv]
  · intro acc rv e r
    simp only [connect]
    split <;> rename_i h
    · simp only [Bool.and_eq_true] at h
      simp [h.1.1, h.1.2, h.2]
    · simp only [Bool.and_eq_true, not_and] at h
      cases h1 : receiver r Ty.exception_ptr <;> cases h2 : receiver_of acc r [e.typeOf] <;>
        cases h3 : receiver r e.typeOf <;> simp_all
  · intro acc rv r
    simp only [connect]
    split <;> rename_i h
    · simp [h]
    · simp at h
      cases h1 : receiver r Ty.exception_ptr <;> cases h2 : receiver_of acc r [] <;> simp_all
  · intro acc rv e r w
    simp only [connect]
    by_cases h : (receiver r Ty.exception_ptr && receiver_of acc r [e.typeOf]
        && receiver r e.typeOf) = true
    · have h' : (receiver r Ty.exception_ptr && receiver r e.typeOf
          && receiver_of acc r [e.typeOf]) = true := by
        simp only [Bool.and_eq_true] at h ⊢
        exact ⟨⟨h.1.1, h.2⟩, h.1.2⟩
      rw [if_pos h, if_pos h']
      simp only [Option.map_some', Option.some.injEq]
      exact start_error acc (.error e) r w e _ (Or.inl rfl) rfl
    · have h' : ¬ (receiver r Ty.exception_ptr && receiver r e.typeOf
          && receiver_of acc r [e.typeOf]) = true := by
        intro hc
        apply h
        simp only [Bool.and_eq_true] at hc ⊢
        exact ⟨⟨hc.1.1, hc.2⟩, hc.1.2⟩
      rw [if_neg h, if_neg h']
      rfl
  · intro acc rv r w
    simp only [connect]
    by_cases h : (receiver r Ty.exception_ptr && receiver_of acc r []) = true
    · rw [if_pos h, if_pos h]
      simp only [Option.map_some', Option.some.injEq]
      exact start_done acc .done r w _ (Or.inl rfl) rfl
    · rw [if_neg h, if_neg h]
      rfl
  · intro acc e
    rfl
  · intro acc
    rfl

/-! ### The receiver wrapper of the environment-write adaptor -/

/-- C28: for every query tag `q`, value `v` and receiver `r`: the wrapper built
by the environment-write adaptor answers `q` with `v`, whatever `r` answers;
every other query has the answer of `r` (also `get_stop_token`, with its
default); `set_value`, `set_error` and `set_done` on the wrapper do what they do
on `r`, and the wrapper accepts exactly the completions `r` accepts. The
operation of the adaptor connects the input sender to the wrapper and `start`
on it starts that inner operation. -/
theorem C28_write_wrapper (acc : Bool) (q : Nat) (v : Val) (r : Receiver)
    (hr : receiver r Ty.exception_ptr = true) :
    (Receiver.write_ q v r).query q = some v
    ∧ (∀ q1, q1 ≠ q → (Receiver.write_ q v r).query q1 = r.query q1)
    ∧ (∀ stoppable, q ≠ get_stop_token_tag →
        get_stop_token stoppable (.write_ q v r) = get_stop_token stoppable r)
    ∧ (∀ stoppable, q = get_stop_token_tag → stoppable v.typeOf = true →
        get_stop_token stoppable (.write_ q v r) = some (.of v))
    ∧ (∀ vs w, (Receiver.write_ q v r).set_value acc vs w = r.set_value acc vs w)
    ∧ (∀ e w, (Receiver.write_ q v r).set_error e w = r.set_error e w)
    ∧ (∀ w, (Receiver.write_ q v r).set_done w = r.set_done w)
    ∧ (∀ E, receiver (.write_ q v r) E = receiver r E)
    ∧ (∀ as, receiver_of acc (.write_ q v r) as = receiver_of acc r as)
    ∧ (∀ rv s, sender s = true → sender (.write s q v) = true →
        connect acc rv (.write s q v) r
          = (connect acc rv s (.write_ q v r)).map (OpState.write_op v))
    ∧ (∀ inner w, start acc (.write_op v inner) w = start acc inner w) := by
  refine ⟨?_, ?_, ?_, ?_, ?_, ?_, ?_, ?_, ?_, ?_, ?_⟩
  · simp [Receiver.query, hr]
  · intro q1 hq
    simp [Receiver.query, hr, hq]
  · intro stoppable hq
    simp [get_stop_token, hr, hq]
  · intro stoppable hq hst
    simp [get_stop_token, hr, hq, hst]
  · intro vs w
    rfl
  · intro e w
    rfl
  · intro w
    rfl
  · intro E
    rfl
  · intro as
    rfl
  · intro rv s hs hw
    have hwr : receiver (.write_ q v r) Ty.exception_ptr = true := hr
    simp only [connect, hs, hw, hr, hwr, Bool.and_self, if_true]
    cases connect acc rv s (.write_ q v r) <;> rfl
  · intro inner w
    rfl

/-- Witness for C28 at a caller's receiver that answers `get_scheduler` and
`get_allocator`, wrapped with the value `obj 3 0` written for `get_scheduler`:
the wrapper answers `get_scheduler` with the written value and `get_allocator`
as the receiver does. -/
theorem C28_write_wrapper_witness :
    receiver (.user env_recv) Ty.exception_ptr = true
    ∧ (Receiver.user env_recv).query 0 = some (.obj 7 0)
    ∧ (Receiver.write_ 0 (.obj 3 0) (.user env_recv)).query 0 = some (.obj 3 0)
    ∧ (Receiver.write_ 0 (.obj 3 0) (.user env_recv)).query 1 = some (.obj 8 0) :=
  ⟨rfl, rfl,
   (C28_write_wrapper true 0 (.obj 3 0) (.user env_recv) rfl).1,
   ((C28_write_wrapper true 0 (.obj 3 0) (.user env_recv) rfl).2.1 1 (by decide)).trans rfl⟩

/-! ## Properties of the specification: coroutines and `submit` -/

/-! ### The awaitable bridge of `connect` -/

/-- C23: for every awaitable `a` with result type `T` that has no `connect` of its
own, and every receiver `r` that accepts `set_value` with `T` (with nothing when
`T` is `void`): `connect(a, r)` goes through the awaitable bridge, and `start` on
its result does the following. When awaiting `a` produces the values `vs` (one
value, or none for `void`): `set_value(r, vs...)` and nothing else if that
returns, and `set_error(r, p)` with `p` holding the exception if `set_value`
throws. When awaiting `a` throws the exception held by `p`: `set_error(r, p)` and
nothing else. When awaiting `a` calls `unhandled_done()`: `set_done(r)` and
nothing else. In every case `start` returns normally. On a caller's receiver the
entries are recorded in this order and number. -/
theorem C23_awaitable_bridge (acc rv : Bool) (a : UserSender) (T : Ty) (r : Receiver)
    (hT : a.info.awaitable = some T) (hc : a.connects r = false)
    (hr : receiver r Ty.exception_ptr = true)
    (hv : receiver_of acc r (if T = Ty.void then [] else [T]) = true) :
    connect acc rv (.user a) r = some (.awaitable_op a.completes r)
    ∧ (∀ vs w, a.completes = .value vs → (r.set_value acc vs w).2 = Flow.normal →
        start acc (.awaitable_op a.completes r) w = r.set_value acc vs w)
    ∧ (∀ vs w e, a.completes = .value vs → (r.set_value acc vs w).2 = Flow.throwing e →
        start acc (.awaitable_op a.completes r) w
          = r.set_error (.eptr e) (r.set_value acc vs w).1)
    ∧ (∀ p w, a.completes = .error p →
        start acc (.awaitable_op a.completes r) w = r.set_error p w)
    ∧ (∀ w, a.completes = .done →
        start acc (.awaitable_op a.completes r) w = r.set_done w)
    ∧ (∀ u vs w, r = .user u → a.completes = .value vs → u.value_throws vs = none →
        start acc (.awaitable_op a.completes r) w
          = (w.emit (.set_value u.id vs), Flow.normal))
    ∧ (∀ u vs w e, r = .user u → a.completes = .value vs → u.value_throws vs = some e →
        start acc (.awaitable_op a.completes r) w
          = ((w.emit (.set_value u.id vs)).emit (.set_error u.id (.eptr e)), Flow.normal))
    ∧ (∀ u p w, r = .user u → a.completes = .error p →
        start acc (.awaitable_op a.completes r) w
          = (w.emit (.set_error u.id p), Flow.normal))
    ∧ (∀ u w, r = .user u → a.completes = .done →
        start acc (.awaitable_op a.completes r) w
          = (w.emit (.set_done u.id), Flow.normal)) := by
  refine ⟨?_, ?_, ?_, ?_, ?_, ?_, ?_, ?_, ?_⟩
  · simp only [connect, hc, hr, hT, hv]
    simp
  · intro vs w hsig hflow
    simp only [start, hsig, Receiver.complete]
    exact catch_of_normal r _ hflow
  · intro vs w e hsig hflow
    simp only [start, hsig, Receiver.complete]
    generalize r.set_value acc vs w = x at hflow
    obtain ⟨w1, fl⟩ := x
    simp only at hflow
    subst hflow
    rfl
  · intro p w hsig
    exact start_error acc a.completes r w p _ (Or.inr (Or.inr rfl)) hsig
  · intro w hsig
    exact start_done acc a.completes r w _ (Or.inr (Or.inr rfl)) hsig
  · intro u vs w hu hsig hth
    subst hu
    simp [start, hsig, Receiver.complete, Receiver.set_value, hth]
  · intro u vs w e hu hsig hth
    subst hu
    simp [start, hsig, Receiver.complete, Receiver.set_value, hth, Receiver.set_error]
  · intro u p w hu hsig
    subst hu
    simp [start, hsig, Receiver.complete, Receiver.set_error]
  · intro u w hu hsig
    subst hu
    simp [start, hsig, Receiver.complete, Receiver.set_done]

/-- Witness for C23 at the awaitable with result `int` that produces `5`,
connected to the caller's receiver whose `set_value` throws `13`: `set_value(5)`
is entered, then `set_error` with a pointer to `13`. -/
theorem C23_awaitable_bridge_witness :
    awaitable_base_sender.info.awaitable = some Ty.int
    ∧ awaitable_base_sender.connects (.user throwing_recv) = false
    ∧ receiver (.user throwing_recv) Ty.exception_ptr = true
    ∧ receiver_of true (.user throwing_recv) [Ty.int] = true
    ∧ start true (.awaitable_op awaitable_base_sender.completes (.user throwing_recv))
        World.init
        = ({ trace := [.set_value 1 [.int 5], .set_error 1 (.eptr (.int 13))],
             data := .monostate }, Flow.normal) :=
  ⟨rfl, rfl, rfl, rfl,
   (C23_awaitable_bridge true true awaitable_base_sender Ty.int (.user throwing_recv)
      rfl rfl rfl rfl).2.2.2.2.2.2.1 throwing_recv [.int 5] World.init (.int 13) rfl rfl rfl⟩

/-! ### Awaiting a sender with `as_awaitable` -/

/-- The host sees `await_resume` return only from a `result_` that `set_value`
filled. -/
theorem await_resume_returns (result_ : Expected) (vs : List Val)
    (h : await_resume result_ = .await_returns vs) : result_ = .value vs := by
  cases result_ with
  | monostate => simp [await_resume] at h
  | value ws => simpa [await_resume] using h
  | error p => simp [await_resume] at h

/-- C24: for the receiver that `as_awaitable` connects the awaited sender to,
with awaited type `Value`, host promise `P` and any state `st` of the await:
`set_value(v)` with a `v` that `Value` can be built from stores it, resumes the
host, and the await yields `v` (`set_value()` for `Value = void` yields nothing);
`set_error(p)` stores the pointer, resumes the host, and the await rethrows the
exception `p` holds; `set_done` calls `unhandled_done()` on the host promise and
resumes the handle it returns, and the host is not resumed; and `await_resume`
returns a value only from a result that `set_value` stored, so after a single
completion the await yields `vs` only if that completion was `set_value(vs...)`. -/
theorem C24_as_awaitable (Value : Ty) (P : HostPromise) (st : AwaitState) :
    (∀ v, constructible_from Value v.typeOf = true →
        rec_complete Value P (.value [v]) st
          = some { result_ := .value [v], host := st.host ++ [.await_returns [v]] })
    ∧ (Value = Ty.void →
        rec_complete Value P (.value []) st
          = some { result_ := .value [], host := st.host ++ [.await_returns []] })
    ∧ (∀ e, rec_complete Value P (.error (.eptr e)) st
          = some { result_ := .error (.eptr e), host := st.host ++ [.await_rethrows e] })
    ∧ (∀ h, P.unhandled_done = some h →
        rec_complete Value P .done st
          = some { result_ := st.result_, host := st.host ++ [.unhandled_done, .resumed h] })
    ∧ (∀ result_ vs, await_resume result_ = .await_returns vs → result_ = .value vs)
    ∧ await_resume .monostate = .terminate
    ∧ (∀ sig st1 vs, rec_complete Value P sig AwaitState.init = some st1 →
        HostEvent.await_returns vs ∈ st1.host → sig = .value vs)
    ∧ (∀ v, as_awaitable (.just [v]) = some v.typeOf
        ∧ rec_complete v.typeOf P (Sender.source_signal (.just [v])) st
            = some { result_ := .value [v], host := st.host ++ [.await_returns [v]] })
    ∧ as_awaitable (.just [.int 3, .int 4]) = none := by
  refine ⟨?_, ?_, ?_, ?_, await_resume_returns, rfl, ?_, ?_, rfl⟩
  · intro v hv
    simp [rec_complete, rec_set_value, tuple_constructible_from, hv, continuation_resume,
      await_resume]
  · intro hvoid
    simp [rec_complete, rec_set_value, hvoid, continuation_resume, await_resume]
  · intro e
    simp [rec_complete, rec_set_error, Val.typeOf, continuation_resume, await_resume,
      rethrow_exception]
  · intro h hP
    simp [rec_complete, rec_set_done, hP]
  · intro sig st1 vs hsome hmem
    cases sig with
    | value ws =>
        simp only [rec_complete, rec_set_value] at hsome
        split at hsome
        · simp only [Option.some.injEq] at hsome
          subst hsome
          simp [continuation_resume, await_resume, AwaitState.init] at hmem
          rw [hmem]
        · simp at hsome
    | error p =>
        simp only [rec_complete, rec_set_error] at hsome
        split at hsome
        · simp only [Option.some.injEq] at hsome
          subst hsome
          simp [continuation_resume, await_resume, AwaitState.init] at hmem
        · simp at hsome
    | done =>
        simp only [rec_complete, rec_set_done] at hsome
        cases hP : P.unhandled_done with
        | none => simp [hP] at hsome
        | some h =>
            simp only [hP, Option.some.injEq] at hsome
            subst hsome
            simp [AwaitState.init] at hmem
  · intro v
    constructor
    · simp [as_awaitable, single_typed_sender, typed_sender, sender, sender_traits,
        TraitsBase.unspecialized, TraitsBase.metadata, single_sender_value_t,
        single_or_void_each, single_or_void_t]
    · simp [Sender.source_signal, rec_complete, rec_set_value, tuple_constructible_from,
        constructible_from_self, continuation_resume, await_resume]

/-! ### `submit` -/

theorem submit_just_error (acc rv : Bool) (e : Val) (r : Receiver) (w : World) :
    submit acc rv (.just_error e) r w
      = (connect acc rv (.just_error e) r).map (fun op => World.delete_once (start acc op w)) := by
  have hs : sender (.just_error e) = true := rfl
  by_cases h : (receiver r Ty.exception_ptr && receiver_of acc r [e.typeOf]
      && receiver r e.typeOf) = true
  · have hw : (receiver (.submit_wrap r) Ty.exception_ptr
        && receiver_of acc (.submit_wrap r) [e.typeOf]
        && receiver (.submit_wrap r) e.typeOf) = true := h
    have hr : receiver r Ty.exception_ptr = true := by
      simp only [Bool.and_eq_true] at h
      exact h.1.1
    have e1 := start_error acc (.error e) (.submit_wrap r) w e _ (Or.inl rfl) rfl
    have e2 := start_error acc (.error e) r w e _ (Or.inl rfl) rfl
    simp only [submit, sender_to_cat, submit_default, connect, hs]
    rw [if_pos h, if_pos hw]
    simp only [hr, Bool.and_self, Option.isSome_some, if_true, Option.map_some', e1, e2]
    rfl
  · simp [submit, sender_to_cat, connect, h]

theorem submit_just_done (acc rv : Bool) (r : Receiver) (w : World) :
    submit acc rv .just_done r w
      = (connect acc rv .just_done r).map (fun op => World.delete_once (start acc op w)) := by
  have hs : sender .just_done = true := rfl
  by_cases h : (receiver r Ty.exception_ptr && receiver_of acc r []) = true
  · have hw : (receiver (.submit_wrap r) Ty.exception_ptr
        && receiver_of acc (.submit_wrap r) []) = true := h
    have hr : receiver r Ty.exception_ptr = true := by
      simp only [Bool.and_eq_true] at h
      exact h.1
    have e1 := start_done acc .done (.submit_wrap r) w _ (Or.inl rfl) rfl
    have e2 := start_done acc .done r w _ (Or.inl rfl) rfl
    simp only [submit, sender_to_cat, submit_default, connect, hs]
    rw [if_pos h, if_pos hw]
    simp only [hr, Bool.and_self, Option.isSome_some, if_true, Option.map_some', e1, e2]
    rfl
  · simp [submit, sender_to_cat, connect, h]

theorem submit_just (acc rv : Bool) (vs : List Val) (r : Receiver) (w : World) :
    submit acc rv (.just vs) r w
      = (connect acc rv (.just vs) r).map (fun _ =>
          match r.set_value acc vs w with
          | (w1, .throwing e) =>
              World.delete_once (r.set_error (.eptr e) { w1 with deleted := w1.deleted + 1 })
          | res => World.delete_once res) := by
  have hs : sender (.just vs) = true := rfl
  by_cases h : (receiver r Ty.exception_ptr && receiver_of acc r (vs.map Val.typeOf)) = true
  · have hw : (receiver (.submit_wrap r) Ty.exception_ptr
        && receiver_of acc (.submit_wrap r) (vs.map Val.typeOf)) = true := h
    have hr : receiver r Ty.exception_ptr = true := by
      simp only [Bool.and_eq_true] at h
      exact h.1
    simp only [submit, sender_to_cat, submit_default, connect, hs]
    rw [if_pos h, if_pos hw]
    simp only [hr, Bool.and_self, Option.isSome_some, if_true, Option.map_some', start,
      Receiver.complete, Receiver.set_value]
    generalize r.set_value acc vs w = x
    obtain ⟨w1, fl⟩ := x
    cases fl <;> simp [Receiver.set_error, World.delete_once, submit_guard, Tag.is_completion]
  · simp [submit, sender_to_cat, connect, h]

/-- C22 (evaluation at the failing input `submit(just(1), r)` with a receiver `r`
whose `set_value` throws `13`): the guard in the wrapper deletes the heap object
when the forwarded `set_value` throws, `start` of the `just` operation catches
the exception and calls `set_error` through the same wrapper, and the guard
deletes the heap object a second time. The completions that reach `r` are those
of `start(connect(just(1), r))`. In general, for the three factories and every
receiver, `submit` delivers what starting the connected operation delivers and
evaluates one `delete` per completion that passes through the wrapper: one,
unless `set_value` throws. A query passes through the wrapper to `r` and deletes
nothing. At a second failing input, `submit(then(just(3), x → x + 1), r)`, the
`tag_invoke` overload is chosen and `r` receives `3` without the callable being
invoked, while starting the connected operation delivers `4` when the member
`connect` of the `then` sender is seen (and `3` when it is not). -/
theorem C22_submit_deletes_twice :
    (∀ acc : Bool, submit acc true (.just [.int 1]) (.user throwing_recv) World.init
        = some ({ trace := [.set_value 1 [.int 1], .set_error 1 (.eptr (.int 13))],
                  data := .monostate, deleted := 2 }, Flow.normal))
    ∧ (∀ acc : Bool,
        (connect acc true (.just [.int 1]) (.user throwing_recv)).map
            (fun op => start acc op World.init)
        = some ({ trace := [.set_value 1 [.int 1], .set_error 1 (.eptr (.int 13))],
                  data := .monostate, deleted := 0 }, Flow.normal))
    ∧ (∀ (acc rv : Bool) (vs : List Val) (r : Receiver) (w : World),
        submit acc rv (.just vs) r w
          = (connect acc rv (.just vs) r).map (fun _ =>
              match r.set_value acc vs w with
              | (w1, .throwing e) =>
                  World.delete_once
                    (r.set_error (.eptr e) { w1 with deleted := w1.deleted + 1 })
              | res => World.delete_once res))
    ∧ (∀ (acc rv : Bool) (e : Val) (r : Receiver) (w : World),
        submit acc rv (.just_error e) r w
          = (connect acc rv (.just_error e) r).map
              (fun op => World.delete_once (start acc op w)))
    ∧ (∀ (acc rv : Bool) (r : Receiver) (w : World),
        submit acc rv .just_done r w
          = (connect acc rv .just_done r).map (fun op => World.delete_once (start acc op w)))
    ∧ (∀ (r : Receiver) (q : Nat) (w : World), submit_wrap_query r q w = (r.query q, w))
    ∧ (∀ (stoppable : Ty → Bool) (r : Receiver),
        get_stop_token stoppable (.submit_wrap r) = get_stop_token stoppable r)
    ∧ submit true true (.then_ (.just [.int 3]) succ_fn) (.user any_recv) World.init
        = some ({ trace := [.set_value 0 [.int 3]], data := .monostate, deleted := 1 },
                Flow.normal)
    ∧ (connect true true (.then_ (.just [.int 3]) succ_fn) (.user any_recv)).map
          (fun op => start true op World.init)
        = some ({ trace := [.invoked 3 [.int 3], .set_value 0 [.int 4]], data := .monostate,
                  deleted := 0 }, Flow.normal)
    ∧ submit false true (.then_ (.just [.int 3]) succ_fn) (.user any_recv) World.init
        = some ({ trace := [.set_value 0 [.int 3]], data := .monostate, deleted := 1 },
                Flow.normal)
    ∧ (connect false true (.then_ (.just [.int 3]) succ_fn) (.user any_recv)).map
          (fun op => start false op World.init)
        = some ({ trace := [.set_value 0 [.int 3]], data := .monostate, deleted := 0 },
                Flow.normal) := by
  refine ⟨?_, ?_, submit_just, submit_just_error, submit_just_done, ?_, ?_,
    rfl, rfl, rfl, rfl⟩
  · intro acc
    cases acc <;> rfl
  · intro acc
    cases acc <;> rfl
  · intro r q w
    rfl
  · intro stoppable r
    rfl

end StdExec
